import Mathlib

/-!
# tinygb CPU core (`src/core/cpu.c`)

A shallow embedding of the instruction-execution core of tinygb: the register
file accessors, the cycle accountant, the instruction handlers and the opcode
dispatch table, followed by theorems about them.

Conventions of the embedding.

* `uint8_t` / `uint16_t` values are natural numbers; a store that can leave
  the range of its variable is followed by an explicit `% 256` / `% 65536`
  (a store through an and-mask, or an or with a flag mask, cannot).
* `int` counters (`cycles`, `total_cycles`, `timing.current_cycles`) are kept as
  exact, unbounded counts.  The code only ever adds to them or resets them, so
  the value the 32-bit C variable holds is `asInt` of the exact count (wrapping
  at every `+=` and wrapping once at the end agree, `asInt_add`); statements
  about the C variable itself go through `asInt`.
* `double` values (`cycles_time`) are exact rationals: rounding is not modelled,
  and a division by a zero `cpu_speed` is outside the model.
* `dump_cpu` ends in `die`, which terminates the process.  A handler therefore
  returns `Except State State`: `.error s` is termination with `s` the machine
  state at the time of the dump, `.ok s` is normal completion.
* `write_log` and the `DISASM` / `THROTTLE_LOG` blocks only print and are left
  out.
* Calls that leave the core (`SDL_Delay`, `write_byte`) and the arguments given
  to `count_cycles` are recorded in trace fields of the state.
-/

namespace TinyGB

/-! ## Constants -/

def REG_A : Nat := 7
def REG_B : Nat := 0
def REG_C : Nat := 1
def REG_D : Nat := 2
def REG_E : Nat := 3
def REG_H : Nat := 4
def REG_L : Nat := 5

def REG_BC : Nat := 0
def REG_DE : Nat := 1
def REG_HL : Nat := 2
def REG_SP : Nat := 3

/-- Throttle threshold in milliseconds (`#define THROTTLE_THRESHOLD 2.0`). -/
def THROTTLE_THRESHOLD : ℚ := 2

/-- Modelled from the spec: the zero flag mask of `tinygb.h` (the header is
absent); the flags are the top four bits of the low byte of `af`, in the order
zero, subtract, half-carry, carry. -/
def FLAG_ZF : Nat := 0x80

/-- Modelled from the spec: the subtract flag mask of `tinygb.h` (absent). -/
def FLAG_N : Nat := 0x40

/-- Modelled from the spec: the half-carry flag mask of `tinygb.h` (absent). -/
def FLAG_H : Nat := 0x20

/-- Modelled from the spec: the carry flag mask of `tinygb.h` (absent). -/
def FLAG_CY : Nat := 0x10

/-! ## Machine state -/

/-- The globals of `cpu.c` together with the external state it touches. -/
structure State where
  /-- `cpu.af`: accumulator (high byte) and flags (low byte) -/
  af : Nat
  /-- `cpu.bc` -/
  bc : Nat
  /-- `cpu.de` -/
  de : Nat
  /-- `cpu.hl` -/
  hl : Nat
  /-- `cpu.sp` -/
  sp : Nat
  /-- `cpu.pc` -/
  pc : Nat
  /-- `cpu.ime` -/
  ime : Nat
  /-- interrupt request register -/
  io_if : Nat
  /-- interrupt enable register -/
  io_ie : Nat
  /-- `double cycles_time` -/
  cycles_time : ℚ
  /-- `int cycles` -/
  cycles : Int
  /-- `int total_cycles` -/
  total_cycles : Int
  /-- `int cpu_speed` -/
  cpu_speed : Int
  /-- `timing.current_cycles` -/
  current_cycles : Int
  /-- `timing.cpu_cycles_ms` -/
  cpu_cycles_ms : Int
  /-- `timing.cpu_cycles_vline` -/
  cpu_cycles_vline : Int
  /-- the addressable memory behind `read_byte` / `write_byte` -/
  mem : Nat → Nat
  /-- trace: the arguments of the calls of `count_cycles`, oldest first -/
  reported : List Int
  /-- trace: the arguments of the calls of `SDL_Delay`, oldest first -/
  delays : List Int
  /-- trace: the (address, value) pairs given to `write_byte`, oldest first -/
  writes : List (Nat × Nat)

/-- The values `tinygb.h` and the rest of the emulator supply to `cpu_start`. -/
structure Config where
  is_cgb : Bool
  GB_CPU_SPEED : Int
  CGB_CPU_SPEED : Int
  REFRESH_TIME_LINE : ℚ

/-- C conversion `(int)x` of a `double`: truncation toward zero. -/
def truncToInt (x : ℚ) : Int := if 0 ≤ x then ⌊x⌋ else ⌈x⌉

/-- The test `cpu.af & mask` of the handlers. -/
def flagSet (s : State) (mask : Nat) : Bool := s.af &&& mask != 0

/-! ## External memory collaborator -/

/-- Modelled from the spec: `read_byte(address: u16) -> u8` of the absent memory
module, over a flat 16-bit address space. -/
def read_byte (s : State) (addr : Nat) : Nat := s.mem (addr % 65536) % 256

/-- Modelled from the spec: `read_word(address: u16) -> u16`, little-endian, of
the absent memory module. -/
def read_word (s : State) (addr : Nat) : Nat :=
  read_byte s addr + 256 * read_byte s (addr + 1)

/-- Modelled from the spec: `write_byte(address: u16, value: u8)` of the absent
memory module, over a flat 16-bit address space. -/
def write_byte (s : State) (addr : Nat) (val : Nat) : State :=
  { s with
    mem := fun a => if a = addr % 65536 then val % 256 else s.mem a
    writes := s.writes ++ [(addr % 65536, val % 256)] }

/-! ## Cycle accountant -/

/-- The function `count_cycles(n)`.  The three `int` counters hold exact counts (the C
variable holds `asInt` of them) and `cycles_time` is an exact rational. -/
def count_cycles (s : State) (n0 : Int) : State :=
  let n := n0 + 1
  let msec : ℚ := (n : ℚ) * 1000 / (s.cpu_speed : ℚ)
  let t := s.cycles_time + msec
  let s1 : State :=
    { s with
      total_cycles := s.total_cycles + n
      cycles := s.cycles + n
      current_cycles := s.current_cycles + n
      cycles_time := t
      reported := s.reported ++ [n0] }
  if THROTTLE_THRESHOLD ≤ t then
    { s1 with
      delays := s1.delays ++ [truncToInt t]
      cycles_time := 0
      cycles := 0 }
  else s1

/-! ## Startup and the register file -/

def cpu_start (cfg : Config) (s : State) : State :=
  let cpu_speed := if cfg.is_cgb then cfg.CGB_CPU_SPEED else cfg.GB_CPU_SPEED
  let cpu_cycles_ms := Int.tdiv cpu_speed 1000
  { s with
    af := 0x01B0
    bc := 0x0013
    de := 0x00D8
    hl := 0x014D
    sp := 0xFFFE
    pc := 0x0100
    io_if := 0
    io_ie := 0
    cpu_speed := cpu_speed
    current_cycles := 0
    cpu_cycles_ms := cpu_cycles_ms
    cpu_cycles_vline := truncToInt ((cpu_cycles_ms : ℚ) * cfg.REFRESH_TIME_LINE) }

def write_reg8 (s : State) (reg : Nat) (r0 : Nat) : Except State State :=
  let r := r0 % 256
  if reg = REG_A then .ok { s with af := (s.af &&& 0x00FF) ||| (r <<< 8) }
  else if reg = REG_B then .ok { s with bc := (s.bc &&& 0x00FF) ||| (r <<< 8) }
  else if reg = REG_C then .ok { s with bc := (s.bc &&& 0xFF00) ||| r }
  else if reg = REG_D then .ok { s with de := (s.de &&& 0x00FF) ||| (r <<< 8) }
  else if reg = REG_E then .ok { s with de := (s.de &&& 0xFF00) ||| r }
  else if reg = REG_H then .ok { s with hl := (s.hl &&& 0x00FF) ||| (r <<< 8) }
  else if reg = REG_L then .ok { s with hl := (s.hl &&& 0xFF00) ||| r }
  else .error s

def read_reg8 (s : State) (reg : Nat) : Except State Nat :=
  if reg = REG_A then .ok ((s.af >>> 8) % 256)
  else if reg = REG_B then .ok ((s.bc >>> 8) % 256)
  else if reg = REG_C then .ok ((s.bc &&& 0xFF) % 256)
  else if reg = REG_D then .ok ((s.de >>> 8) % 256)
  else if reg = REG_E then .ok ((s.de &&& 0xFF) % 256)
  else if reg = REG_H then .ok ((s.hl >>> 8) % 256)
  else if reg = REG_L then .ok ((s.hl &&& 0xFF) % 256)
  else .error s

def write_reg16 (s : State) (reg : Nat) (r0 : Nat) : Except State State :=
  let r := r0 % 65536
  if reg = REG_BC then .ok { s with bc := r }
  else if reg = REG_DE then .ok { s with de := r }
  else if reg = REG_HL then .ok { s with hl := r }
  else if reg = REG_SP then .ok { s with sp := r }
  else .error s

def read_reg16 (s : State) (reg : Nat) : Except State Nat :=
  if reg = REG_BC then .ok (s.bc % 65536)
  else if reg = REG_DE then .ok (s.de % 65536)
  else if reg = REG_HL then .ok (s.hl % 65536)
  else if reg = REG_SP then .ok (s.sp % 65536)
  else .error s

/-- The statement `cpu.af |= mask`. -/
def af_or (s : State) (mask : Nat) : State := { s with af := s.af ||| mask }

/-- The statement `cpu.af &= ~mask` on the 16-bit `af`. -/
def af_andnot (s : State) (mask : Nat) : State :=
  { s with af := s.af &&& (0xFFFF ^^^ mask) }

/-- The statement `cpu.pc += k` on the 16-bit `pc`. -/
def pc_add (s : State) (k : Nat) : State := { s with pc := (s.pc + k) % 65536 }

/-- The statement `cpu.pc -= k` on the 16-bit `pc`, for a byte `k`. -/
def pc_sub (s : State) (k : Nat) : State :=
  { s with pc := (s.pc % 65536 + 65536 - k % 256) % 65536 }

/-! ## Instruction handlers -/

def nop (s : State) : Except State State :=
  let s := pc_add s 1
  .ok (count_cycles s 1)

def jp_nn (s : State) : Except State State :=
  let new_pc := read_word s (s.pc + 1)
  let s := { s with pc := new_pc % 65536 }
  .ok (count_cycles s 4)

def ld_r_r (s : State) : Except State State := do
  let opcode := read_byte s s.pc
  let x := (opcode >>> 3) &&& 7
  let y := opcode &&& 7
  let src ← read_reg8 s y
  let s ← write_reg8 s x src
  let s := pc_add s 1
  pure (count_cycles s 1)

def sbc_a_r (s : State) : Except State State := do
  let opcode := read_byte s s.pc
  let reg := opcode &&& 7
  let a ← read_reg8 s REG_A
  let r ← read_reg8 s reg
  let a := (a + 256 - r) % 256
  let a := if flagSet s FLAG_CY then (a + 255) % 256 else a
  let s := af_or s FLAG_N
  let s := if a = 0 then af_or s FLAG_ZF else af_andnot s FLAG_ZF
  let a0 ← read_reg8 s REG_A
  let s := if a > a0 then af_or s FLAG_CY else af_andnot s FLAG_CY
  let a1 ← read_reg8 s REG_A
  let s := if (a &&& 0x0F) < (a1 &&& 0x0F) then af_or s FLAG_H else af_andnot s FLAG_H
  let s ← write_reg8 s REG_A a
  let s := pc_add s 1
  pure (count_cycles s 1)

def sub_r (s : State) : Except State State := do
  let opcode := read_byte s s.pc
  let reg := opcode &&& 7
  let a ← read_reg8 s REG_A
  let r ← read_reg8 s reg
  let a := (a + 256 - r) % 256
  let s := af_or s FLAG_N
  let s := if a = 0 then af_or s FLAG_ZF else af_andnot s FLAG_ZF
  let a0 ← read_reg8 s REG_A
  let s := if a > a0 then af_or s FLAG_CY else af_andnot s FLAG_CY
  let a1 ← read_reg8 s REG_A
  let s := if (a &&& 0x0F) < (a1 &&& 0x0F) then af_or s FLAG_H else af_andnot s FLAG_H
  let s ← write_reg8 s REG_A a
  let s := pc_add s 1
  pure (count_cycles s 1)

def dec_r (s : State) : Except State State := do
  let opcode := read_byte s s.pc
  let reg := (opcode >>> 3) &&& 7
  let r ← read_reg8 s reg
  let old := r
  let r := (r + 255) % 256
  let s := af_or s FLAG_N
  let s := if r = 0 then af_or s FLAG_ZF else af_andnot s FLAG_ZF
  let s := if (r &&& 0x0F) > (old &&& 0x0F) then af_or s FLAG_H else af_andnot s FLAG_H
  let s ← write_reg8 s reg r
  let s := pc_add s 1
  pure (count_cycles s 1)

def ld_r_xx (s : State) : Except State State := do
  let opcode := read_byte s s.pc
  let reg := (opcode >>> 3) &&& 7
  let val := read_byte s (s.pc + 1)
  let s ← write_reg8 s reg val
  let s := pc_add s 2
  pure (count_cycles s 2)

def inc_r (s : State) : Except State State := do
  let opcode := read_byte s s.pc
  let reg := (opcode >>> 3) &&& 7
  let r ← read_reg8 s reg
  let old := r
  let r := (r + 1) % 256
  let s := af_andnot s FLAG_N
  let s := if r = 0 then af_or s FLAG_ZF else af_andnot s FLAG_ZF
  let s := if (r &&& 0x0F) < (old &&& 0x0F) then af_or s FLAG_H else af_andnot s FLAG_H
  let s ← write_reg8 s reg r
  let s := pc_add s 1
  pure (count_cycles s 1)

def jr_e (s : State) : Except State State :=
  let e := read_byte s (s.pc + 1)
  if e &&& 0x80 ≠ 0 then
    let pe := (e ^^^ 0xFF) % 256
    let pe := (pe + 1) % 256
    let s := pc_add s 2
    let s := pc_sub s pe
    .ok (count_cycles s 3)
  else
    let s := pc_add s 2
    let s := pc_add s e
    .ok (count_cycles s 3)

def ld_r_hl (s : State) : Except State State := do
  let opcode := read_byte s s.pc
  let reg := (opcode >>> 3) &&& 7
  let val := read_byte s s.hl
  let s ← write_reg8 s reg val
  let s := pc_add s 1
  pure (count_cycles s 2)

def ld_r_xxxx (s : State) : Except State State := do
  let opcode := read_byte s s.pc
  let reg := (opcode >>> 4) &&& 3
  let val := read_word s (s.pc + 1)
  let s ← write_reg16 s reg val
  let s := pc_add s 3
  pure (count_cycles s 3)

def cpl (s : State) : Except State State := do
  let a ← read_reg8 s REG_A
  let s ← write_reg8 s REG_A (a ^^^ 0xFF)
  let s := af_or s (FLAG_N ||| FLAG_H)
  let s := pc_add s 1
  pure (count_cycles s 1)

def ld_bc_a (s : State) : Except State State := do
  let a ← read_reg8 s REG_A
  let s := write_byte s s.bc a
  let s := pc_add s 1
  pure (count_cycles s 2)

def inc_r16 (s : State) : Except State State := do
  let opcode := read_byte s s.pc
  let reg := (opcode >>> 4) &&& 3
  let val ← read_reg16 s reg
  let val := (val + 1) % 65536
  let s ← write_reg16 s reg val
  let s := pc_add s 1
  pure (count_cycles s 2)

def xor_r (s : State) : Except State State := do
  let opcode := read_byte s s.pc
  let reg := opcode &&& 7
  let val ← read_reg8 s reg
  let a ← read_reg8 s REG_A
  let a := a ^^^ val
  let s := if a = 0 then af_or s FLAG_ZF else af_andnot s FLAG_ZF
  let s := af_andnot s (FLAG_N ||| FLAG_H ||| FLAG_CY)
  let s ← write_reg8 s REG_A a
  let s := pc_add s 1
  pure (count_cycles s 1)

def ldd_hl_a (s : State) : Except State State := do
  let a ← read_reg8 s REG_A
  let s := write_byte s s.hl a
  let s := { s with hl := (s.hl + 65535) % 65536 }
  let s := pc_add s 1
  pure (count_cycles s 2)

def jr_nz (s : State) : Except State State :=
  let e := read_byte s (s.pc + 1)
  if e &&& 0x80 ≠ 0 then
    let pe := (e ^^^ 0xFF) % 256
    let pe := (pe + 1) % 256
    let s := pc_add s 2
    if flagSet s FLAG_ZF then
      .ok (count_cycles s 2)
    else
      let s := pc_sub s pe
      .ok (count_cycles s 3)
  else
    let s := pc_add s 2
    if flagSet s FLAG_ZF then
      .ok (count_cycles s 2)
    else
      let s := pc_add s e
      .ok (count_cycles s 3)

def di (s : State) : Except State State :=
  let s := { s with ime := 0 }
  let s := pc_add s 1
  .ok (count_cycles s 1)

def ldh_a8_a (s : State) : Except State State := do
  let a8 := read_byte s (s.pc + 1)
  let addr := (0xFF00 + a8) % 65536
  let a ← read_reg8 s REG_A
  let s := write_byte s addr a
  let s := pc_add s 2
  pure (count_cycles s 3)

def cp_xx (s : State) : Except State State := do
  let val := read_byte s (s.pc + 1)
  let a ← read_reg8 s REG_A
  let a := (a + 256 - val) % 256
  let s := af_or s FLAG_N
  let s := if a = 0 then af_or s FLAG_ZF else af_andnot s FLAG_ZF
  let a0 ← read_reg8 s REG_A
  let s := if a > a0 then af_or s FLAG_CY else af_andnot s FLAG_CY
  let a1 ← read_reg8 s REG_A
  let s := if (a &&& 0x0F) < (a1 &&& 0x0F) then af_or s FLAG_H else af_andnot s FLAG_H
  let s := pc_add s 2
  pure (count_cycles s 2)

def jr_z (s : State) : Except State State :=
  let e := read_byte s (s.pc + 1)
  if e &&& 0x80 ≠ 0 then
    let pe := (e ^^^ 0xFF) % 256
    let pe := (pe + 1) % 256
    let s := pc_add s 2
    if !(flagSet s FLAG_ZF) then
      .ok (count_cycles s 2)
    else
      let s := pc_sub s pe
      .ok (count_cycles s 3)
  else
    let s := pc_add s 2
    if !(flagSet s FLAG_ZF) then
      .ok (count_cycles s 2)
    else
      let s := pc_add s e
      .ok (count_cycles s 3)

def ld_a16_a (s : State) : Except State State := do
  let addr := read_word s (s.pc + 1)
  let a ← read_reg8 s REG_A
  let s := write_byte s addr a
  let s := pc_add s 3
  pure (count_cycles s 4)

def ldh_a_a8 (s : State) : Except State State := do
  let a8 := read_byte s (s.pc + 1)
  let addr := (0xFF00 + a8) % 65536
  let s ← write_reg8 s REG_A (read_byte s addr)
  let s := pc_add s 2
  pure (count_cycles s 3)

/-! ## Dispatch -/

/-- The handler functions an entry of the `opcodes` table can point to. -/
inductive Handler
  | nop | jp_nn | ld_r_r | sbc_a_r | sub_r | dec_r | ld_r_xx | inc_r | jr_e
  | ld_r_hl | ld_r_xxxx | cpl | ld_bc_a | inc_r16 | xor_r | ldd_hl_a | jr_nz
  | di | ldh_a8_a | cp_xx | jr_z | ld_a16_a | ldh_a_a8
  deriving DecidableEq, Repr

/-- Calling through a table entry. -/
def Handler.run : Handler → State → Except State State
  | .nop => TinyGB.nop
  | .jp_nn => TinyGB.jp_nn
  | .ld_r_r => TinyGB.ld_r_r
  | .sbc_a_r => TinyGB.sbc_a_r
  | .sub_r => TinyGB.sub_r
  | .dec_r => TinyGB.dec_r
  | .ld_r_xx => TinyGB.ld_r_xx
  | .inc_r => TinyGB.inc_r
  | .jr_e => TinyGB.jr_e
  | .ld_r_hl => TinyGB.ld_r_hl
  | .ld_r_xxxx => TinyGB.ld_r_xxxx
  | .cpl => TinyGB.cpl
  | .ld_bc_a => TinyGB.ld_bc_a
  | .inc_r16 => TinyGB.inc_r16
  | .xor_r => TinyGB.xor_r
  | .ldd_hl_a => TinyGB.ldd_hl_a
  | .jr_nz => TinyGB.jr_nz
  | .di => TinyGB.di
  | .ldh_a8_a => TinyGB.ldh_a8_a
  | .cp_xx => TinyGB.cp_xx
  | .jr_z => TinyGB.jr_z
  | .ld_a16_a => TinyGB.ld_a16_a
  | .ldh_a_a8 => TinyGB.ldh_a_a8

namespace Handler

/-- No handler: a `NULL` entry of the table. -/
def NULL : Option Handler := none

/-- The initialiser of `opcodes[256]`, row by row as in the source; `some f` is a
pointer to the handler function `f`. -/
def table : List (Option Handler) := [
  some nop, some ld_r_xxxx, some ld_bc_a, some inc_r16, NULL, some dec_r, some ld_r_xx, NULL,  -- 0x00
  NULL, NULL, NULL, NULL, NULL, some dec_r, some ld_r_xx, NULL,  -- 0x08
  NULL, some ld_r_xxxx, NULL, some inc_r16, NULL, some dec_r, some ld_r_xx, NULL,  -- 0x10
  some jr_e, NULL, NULL, NULL, NULL, some dec_r, some ld_r_xx, NULL,  -- 0x18
  some jr_nz, some ld_r_xxxx, NULL, some inc_r16, NULL, some dec_r, some ld_r_xx, NULL,  -- 0x20
  some jr_z, NULL, NULL, NULL, some inc_r, some dec_r, some ld_r_xx, some cpl,  -- 0x28
  NULL, some ld_r_xxxx, some ldd_hl_a, some inc_r16, NULL, NULL, NULL, NULL,  -- 0x30
  NULL, NULL, NULL, NULL, NULL, some dec_r, some ld_r_xx, NULL,  -- 0x38
  some ld_r_r, some ld_r_r, some ld_r_r, some ld_r_r, some ld_r_r, some ld_r_r, some ld_r_hl, some ld_r_r,  -- 0x40
  some ld_r_r, some ld_r_r, some ld_r_r, some ld_r_r, some ld_r_r, some ld_r_r, some ld_r_hl, some ld_r_r,  -- 0x48
  some ld_r_r, some ld_r_r, some ld_r_r, some ld_r_r, some ld_r_r, some ld_r_r, some ld_r_hl, some ld_r_r,  -- 0x50
  some ld_r_r, some ld_r_r, some ld_r_r, some ld_r_r, some ld_r_r, some ld_r_r, some ld_r_hl, some ld_r_r,  -- 0x58
  some ld_r_r, some ld_r_r, some ld_r_r, some ld_r_r, some ld_r_r, some ld_r_r, some ld_r_hl, some ld_r_r,  -- 0x60
  some ld_r_r, some ld_r_r, some ld_r_r, some ld_r_r, some ld_r_r, some ld_r_r, some ld_r_hl, some ld_r_r,  -- 0x68
  NULL, NULL, NULL, NULL, NULL, NULL, NULL, NULL,  -- 0x70
  some ld_r_r, some ld_r_r, some ld_r_r, some ld_r_r, some ld_r_r, some ld_r_r, some ld_r_hl, some ld_r_r,  -- 0x78
  NULL, NULL, NULL, NULL, NULL, NULL, NULL, NULL,  -- 0x80
  NULL, NULL, NULL, NULL, NULL, NULL, NULL, NULL,  -- 0x88
  some sub_r, some sub_r, some sub_r, some sub_r, some sub_r, some sub_r, NULL, some sub_r,  -- 0x90
  some sbc_a_r, some sbc_a_r, some sbc_a_r, some sbc_a_r, some sbc_a_r, some sbc_a_r, NULL, some sbc_a_r,  -- 0x98
  NULL, NULL, NULL, NULL, NULL, NULL, NULL, NULL,  -- 0xA0
  some xor_r, some xor_r, some xor_r, some xor_r, some xor_r, some xor_r, NULL, some xor_r,  -- 0xA8
  NULL, NULL, NULL, NULL, NULL, NULL, NULL, NULL,  -- 0xB0
  NULL, NULL, NULL, NULL, NULL, NULL, NULL, NULL,  -- 0xB8
  NULL, NULL, NULL, some jp_nn, NULL, NULL, NULL, NULL,  -- 0xC0
  NULL, NULL, NULL, NULL, NULL, NULL, NULL, NULL,  -- 0xC8
  NULL, NULL, NULL, NULL, NULL, NULL, NULL, NULL,  -- 0xD0
  NULL, NULL, NULL, NULL, NULL, NULL, NULL, NULL,  -- 0xD8
  some ldh_a8_a, NULL, NULL, NULL, NULL, NULL, NULL, NULL,  -- 0xE0
  NULL, NULL, some ld_a16_a, NULL, NULL, NULL, NULL, NULL,  -- 0xE8
  some ldh_a_a8, NULL, NULL, some di, NULL, NULL, NULL, NULL,  -- 0xF0
  NULL, NULL, NULL, NULL, NULL, NULL, some cp_xx, NULL  -- 0xF8
]

end Handler

/-- The lookup table `opcodes[256]`. -/
def opcodes : List (Option Handler) := Handler.table

/-- The table entry `opcodes[opcode]`. -/
def opcodeEntry (opcode : Nat) : Option Handler := opcodes.getD opcode none

def cpu_cycle (s : State) : Except State State :=
  let opcode := read_byte s s.pc
  match opcodeEntry opcode with
  | none => .error s
  | some h => h.run s

/-! ## Auxiliary definitions used in the statements -/

/-- The value `read_reg8` hands back to its caller: the register on success,
`0xFF` after the dump. -/
def getReg8 (s : State) (reg : Nat) : Nat :=
  match read_reg8 s reg with
  | .ok v => v
  | .error _ => 0xFF

/-- The machine state `write_reg8` leaves behind. -/
def setReg8 (s : State) (reg : Nat) (r : Nat) : State :=
  match write_reg8 s reg r with
  | .ok s1 => s1
  | .error s1 => s1

/-- The 3-bit selectors the register file accepts: all but 6. -/
def validReg8 (reg : Nat) : Prop := reg ∈ [0, 1, 2, 3, 4, 5, 7]

instance (reg : Nat) : Decidable (validReg8 reg) := by
  unfold validReg8; infer_instance

/-- A byte read as a two's-complement signed 8-bit integer. -/
def signed8 (e : Nat) : Int := if e < 128 then (e : Int) else (e : Int) - 256

/-- What every handler does besides its own effect. -/
def Steps (s s1 : State) (c : Int) (newpc : Nat) : Prop :=
  s1.af &&& 15 = s.af &&& 15 ∧ s1.reported = s.reported ++ [c] ∧
  s1.total_cycles = s.total_cycles + (c + 1) ∧
  s1.current_cycles = s.current_cycles + (c + 1) ∧ s1.pc = newpc

/-- The program counter a taken relative jump with displacement byte `e` produces:
the two branches of `jr_e`, `jr_nz` and `jr_z`. -/
def jrTarget (pc e : Nat) : Nat :=
  if e &&& 0x80 ≠ 0 then
    ((pc + 2) % 65536 % 65536 + 65536 - (((e ^^^ 0xFF) % 256 + 1) % 256) % 256) % 65536
  else ((pc + 2) % 65536 + e) % 65536

/-- The argument the handler behind a table entry gives to `count_cycles`. -/
def Handler.cost (h : Handler) (s : State) : Int :=
  match h with
  | .nop | .ld_r_r | .sbc_a_r | .sub_r | .dec_r | .inc_r | .cpl | .xor_r | .di => 1
  | .ld_r_xx | .ld_r_hl | .ld_bc_a | .inc_r16 | .ldd_hl_a | .cp_xx => 2
  | .jr_e | .ld_r_xxxx | .ldh_a8_a | .ldh_a_a8 => 3
  | .jp_nn | .ld_a16_a => 4
  | .jr_nz => if flagSet s FLAG_ZF then 2 else 3
  | .jr_z => if flagSet s FLAG_ZF then 3 else 2

/-- The program counter the handler behind a table entry leaves. -/
def Handler.nextPc (h : Handler) (s : State) : Nat :=
  match h with
  | .nop | .ld_r_r | .sbc_a_r | .sub_r | .dec_r | .inc_r | .cpl | .xor_r | .di
  | .ld_r_hl | .ld_bc_a | .inc_r16 | .ldd_hl_a => (s.pc + 1) % 65536
  | .ld_r_xx | .cp_xx | .ldh_a8_a | .ldh_a_a8 => (s.pc + 2) % 65536
  | .ld_r_xxxx | .ld_a16_a => (s.pc + 3) % 65536
  | .jp_nn => read_word s (s.pc + 1) % 65536
  | .jr_e => jrTarget s.pc (read_byte s (s.pc + 1))
  | .jr_nz =>
    if flagSet s FLAG_ZF then (s.pc + 2) % 65536 else jrTarget s.pc (read_byte s (s.pc + 1))
  | .jr_z =>
    if flagSet s FLAG_ZF then jrTarget s.pc (read_byte s (s.pc + 1)) else (s.pc + 2) % 65536

/-- Calling `cpu_cycle` `n` times in a row, stopping at the first fault. -/
def run : Nat → State → Except State State
  | 0, s => .ok s
  | n + 1, s =>
    match cpu_cycle s with
    | .ok s1 => run n s1
    | .error s1 => .error s1

/-- The globals of `cpu.c` as the C runtime zero-initialises them, over an
all-zero memory. -/
def zeroState : State :=
  { af := 0, bc := 0, de := 0, hl := 0, sp := 0, pc := 0, ime := 0, io_if := 0, io_ie := 0,
    cycles_time := 0, cycles := 0, total_cycles := 0, cpu_speed := 0, current_cycles := 0,
    cpu_cycles_ms := 0, cpu_cycles_vline := 0, mem := fun _ => 0, reported := [], delays := [],
    writes := [] }

/-- A memory holding `bytes` from address `0x0100` on and zero elsewhere. -/
def progMem (bytes : List Nat) : Nat → Nat :=
  fun a => if 0x0100 ≤ a then bytes.getD (a - 0x0100) 0 else 0

/-- A machine at `pc = 0x0100` with the given `af` and `bc` and the program
`bytes` at `0x0100`. -/
def exampleState (af bc : Nat) (bytes : List Nat) : State :=
  { zeroState with af := af, bc := bc, pc := 0x0100, mem := progMem bytes }

/-- A step that calls `write_byte` not at all: the write trace and the memory
are as before. -/
def NoStore (s s1 : State) : Prop := s1.writes = s.writes ∧ s1.mem = s.mem

/-- The loop `jr -2` at 0x0101 with the post-boot registers and `total_cycles = m`. -/
def LoopInv (s : State) (m : Int) : Prop :=
  s.pc = 0x0101 ∧ s.af = 0x01B0 ∧ s.bc = 0x0013 ∧ s.de = 0x00D8 ∧ s.hl = 0x014D ∧
  s.sp = 0xFFFE ∧ read_byte s 0x0101 = 0x18 ∧ read_byte s 0x0102 = 0xFE ∧ s.total_cycles = m

/-- The largest value of a C `int` (32 bits). -/
def INT_MAX : Int := 2147483647

/-- The value a 32-bit two's-complement `int` variable holds when the exact
count is `x`: the counters of the state are exact counts, and `+=` on such a
variable wraps modulo 2^32 (see `asInt_add`). -/
def asInt (x : Int) : Int := (x + 2147483648) % 4294967296 - 2147483648

/-- A machine about to execute `nop` with `total_cycles` two below `INT_MAX + 1`. -/
def nearOverflowState : State :=
  { exampleState 0x01B0 0x0013 [0x00] with total_cycles := 2147483646 }

/-- A machine with 8387 cycles (1048375/524288 ms at 4194304 Hz) in the throttle
window. -/
def nearThrottleState : State :=
  { zeroState with cpu_speed := 4194304, cycles_time := 1048375 / 524288, cycles := 8387 }

/-! ## Basic facts about the building blocks -/

section frame

variable (s : State) (n : Int) (k m : Nat)

@[simp] theorem count_cycles_af : (count_cycles s n).af = s.af := by
  unfold count_cycles; simp only; split <;> rfl
@[simp] theorem count_cycles_bc : (count_cycles s n).bc = s.bc := by
  unfold count_cycles; simp only; split <;> rfl
@[simp] theorem count_cycles_de : (count_cycles s n).de = s.de := by
  unfold count_cycles; simp only; split <;> rfl
@[simp] theorem count_cycles_hl : (count_cycles s n).hl = s.hl := by
  unfold count_cycles; simp only; split <;> rfl
@[simp] theorem count_cycles_sp : (count_cycles s n).sp = s.sp := by
  unfold count_cycles; simp only; split <;> rfl
@[simp] theorem count_cycles_pc : (count_cycles s n).pc = s.pc := by
  unfold count_cycles; simp only; split <;> rfl
@[simp] theorem count_cycles_ime : (count_cycles s n).ime = s.ime := by
  unfold count_cycles; simp only; split <;> rfl
@[simp] theorem count_cycles_mem : (count_cycles s n).mem = s.mem := by
  unfold count_cycles; simp only; split <;> rfl
@[simp] theorem count_cycles_writes : (count_cycles s n).writes = s.writes := by
  unfold count_cycles; simp only; split <;> rfl
@[simp] theorem count_cycles_cpu_speed : (count_cycles s n).cpu_speed = s.cpu_speed := by
  unfold count_cycles; simp only; split <;> rfl
@[simp] theorem count_cycles_total :
    (count_cycles s n).total_cycles = s.total_cycles + (n + 1) := by
  unfold count_cycles; simp only; split <;> rfl
@[simp] theorem count_cycles_current :
    (count_cycles s n).current_cycles = s.current_cycles + (n + 1) := by
  unfold count_cycles; simp only; split <;> rfl
@[simp] theorem count_cycles_reported :
    (count_cycles s n).reported = s.reported ++ [n] := by
  unfold count_cycles; simp only; split <;> rfl

@[simp] theorem flagSet_count_cycles : flagSet (count_cycles s n) m = flagSet s m := by
  simp [flagSet]

end frame

/-! ## Bit-level facts -/

section bits

theorem testBit_255 (i : Nat) : (255 : Nat).testBit i = decide (i < 8) := by
  have h := Nat.testBit_two_pow_sub_one 8 i
  simpa using h

theorem testBit_65535 (i : Nat) : (65535 : Nat).testBit i = decide (i < 16) := by
  have h := Nat.testBit_two_pow_sub_one 16 i
  simpa using h

theorem testBit_65280 (i : Nat) :
    (65280 : Nat).testBit i = (decide (8 ≤ i) && decide (i < 16)) := by
  have h : (65280 : Nat) = 255 <<< 8 := by decide
  rw [h, Nat.testBit_shiftLeft, testBit_255]
  by_cases h8 : 8 ≤ i <;> simp [h8]
  omega

theorem testBit_hi_of_lt {m : Nat} (h : m < 256) (i : Nat) :
    m.testBit (8 + i) = false := by
  apply Nat.testBit_lt_two_pow
  calc m < 2 ^ 8 := h
    _ ≤ 2 ^ (8 + i) := Nat.pow_le_pow_right (by norm_num) (by omega)

theorem mod_256_testBit (x i : Nat) :
    (x % 256).testBit i = (decide (i < 8) && x.testBit i) := by
  have h := Nat.testBit_mod_two_pow x 8 i
  simpa using h

theorem mod_65536_testBit (x i : Nat) :
    (x % 65536).testBit i = (decide (i < 16) && x.testBit i) := by
  have h := Nat.testBit_mod_two_pow x 16 i
  simpa using h

theorem and_255 (x : Nat) : x &&& 255 = x % 256 := by
  have h := Nat.and_pow_two_sub_one_eq_mod x 8
  simpa using h

/-- Reading the high byte after a high-byte write. -/
theorem hi_write_hi (x r : Nat) :
    (((x &&& 255) ||| ((r % 256) <<< 8)) >>> 8) % 256 = r % 256 := by
  apply Nat.eq_of_testBit_eq
  intro i
  simp only [mod_256_testBit, Nat.testBit_shiftRight, Nat.testBit_or, Nat.testBit_and,
    Nat.testBit_shiftLeft, testBit_255]
  by_cases hi : i < 8 <;> simp [hi]

/-- A high-byte write keeps the low byte. -/
theorem lo_write_hi (x r : Nat) : ((x &&& 255) ||| (r <<< 8)) % 256 = x % 256 := by
  apply Nat.eq_of_testBit_eq
  intro i
  simp only [mod_256_testBit, Nat.testBit_or, Nat.testBit_and, Nat.testBit_shiftLeft,
    testBit_255]
  by_cases hi : i < 8 <;> simp [hi]

/-- Reading the low byte after a low-byte write. -/
theorem lo_write_lo (x r : Nat) : ((x &&& 65280) ||| (r % 256)) % 256 = r % 256 := by
  apply Nat.eq_of_testBit_eq
  intro i
  simp only [mod_256_testBit, Nat.testBit_or, Nat.testBit_and, testBit_65280]
  by_cases hi : i < 8 <;> simp [hi]

/-- A low-byte write keeps the high byte. -/
theorem hi_write_lo (x r : Nat) :
    (((x &&& 65280) ||| (r % 256)) >>> 8) % 256 = (x >>> 8) % 256 := by
  apply Nat.eq_of_testBit_eq
  intro i
  simp only [mod_256_testBit, Nat.testBit_shiftRight, Nat.testBit_or, Nat.testBit_and,
    testBit_65280]
  by_cases hi : i < 8 <;> simp [hi]
  omega

/-- Setting bits of the low byte keeps the high byte. -/
theorem hi_or_lo (x m : Nat) (hm : m < 256) : ((x ||| m) >>> 8) % 256 = (x >>> 8) % 256 := by
  apply Nat.eq_of_testBit_eq
  intro i
  simp only [mod_256_testBit, Nat.testBit_shiftRight, Nat.testBit_or, testBit_hi_of_lt hm]
  simp

/-- Clearing bits of the low byte keeps the high byte. -/
theorem hi_andnot_lo (x m : Nat) (hm : m < 256) :
    ((x &&& (65535 ^^^ m)) >>> 8) % 256 = (x >>> 8) % 256 := by
  apply Nat.eq_of_testBit_eq
  intro i
  simp only [mod_256_testBit, Nat.testBit_shiftRight, Nat.testBit_and, Nat.testBit_xor,
    testBit_hi_of_lt hm, testBit_65535]
  by_cases hi : i < 8 <;> simp [hi]
  omega

/-- The test `x & mask` for a one-bit mask. -/
theorem and_two_pow_ne_zero (x k : Nat) : (x &&& 2 ^ k != 0) = x.testBit k := by
  rw [Nat.and_two_pow]
  cases x.testBit k <;> simp

end bits

/-! ## The register file -/

section regfile

variable (s : State) (r v : Nat)

theorem validReg8_cases {r : Nat} (h : validReg8 r) :
    r = 0 ∨ r = 1 ∨ r = 2 ∨ r = 3 ∨ r = 4 ∨ r = 5 ∨ r = 7 := by
  simpa [validReg8] using h

theorem validReg8_iff (r : Nat) : validReg8 r ↔ r < 8 ∧ r ≠ 6 := by
  constructor
  · intro h
    rcases validReg8_cases h with h | h | h | h | h | h | h <;> subst h <;> decide
  · rintro ⟨h1, h2⟩
    interval_cases r <;> first | decide | exact absurd rfl h2

theorem read_reg8_ok {r : Nat} (h : validReg8 r) : read_reg8 s r = .ok (getReg8 s r) := by
  rcases validReg8_cases h with h | h | h | h | h | h | h <;> subst h <;> rfl

theorem write_reg8_ok {r : Nat} (h : validReg8 r) :
    write_reg8 s r v = .ok (setReg8 s r v) := by
  rcases validReg8_cases h with h | h | h | h | h | h | h <;> subst h <;> rfl

theorem read_reg8_fault {r : Nat} (h : ¬ validReg8 r) : read_reg8 s r = .error s := by
  have h0 : r ≠ 0 := fun e => h (by subst e; decide)
  have h1 : r ≠ 1 := fun e => h (by subst e; decide)
  have h2 : r ≠ 2 := fun e => h (by subst e; decide)
  have h3 : r ≠ 3 := fun e => h (by subst e; decide)
  have h4 : r ≠ 4 := fun e => h (by subst e; decide)
  have h5 : r ≠ 5 := fun e => h (by subst e; decide)
  have h7 : r ≠ 7 := fun e => h (by subst e; decide)
  simp [read_reg8, REG_A, REG_B, REG_C, REG_D, REG_E, REG_H, REG_L, h0, h1, h2, h3, h4, h5, h7]

theorem write_reg8_fault {r : Nat} (h : ¬ validReg8 r) : write_reg8 s r v = .error s := by
  have h0 : r ≠ 0 := fun e => h (by subst e; decide)
  have h1 : r ≠ 1 := fun e => h (by subst e; decide)
  have h2 : r ≠ 2 := fun e => h (by subst e; decide)
  have h3 : r ≠ 3 := fun e => h (by subst e; decide)
  have h4 : r ≠ 4 := fun e => h (by subst e; decide)
  have h5 : r ≠ 5 := fun e => h (by subst e; decide)
  have h7 : r ≠ 7 := fun e => h (by subst e; decide)
  simp [write_reg8, REG_A, REG_B, REG_C, REG_D, REG_E, REG_H, REG_L, h0, h1, h2, h3, h4, h5, h7]

theorem getReg8_lt : getReg8 s r < 256 := by
  by_cases h : validReg8 r
  · rcases validReg8_cases h with h | h | h | h | h | h | h <;> subst h <;>
      exact Nat.mod_lt _ (by norm_num)
  · simp [getReg8, read_reg8_fault s h]

theorem getReg8_A : getReg8 s REG_A = (s.af >>> 8) % 256 := rfl

theorem setReg8_lemma_aux {r : Nat} (P : State → Prop) (h0 : P s)
    (hA : ∀ x, P { s with af := x }) (hB : ∀ x, P { s with bc := x })
    (hD : ∀ x, P { s with de := x }) (hH : ∀ x, P { s with hl := x }) :
    P (setReg8 s r v) := by
  by_cases h : validReg8 r
  · rcases validReg8_cases h with h | h | h | h | h | h | h <;> subst h <;>
      first | exact hA _ | exact hB _ | exact hD _ | exact hH _
  · simpa [setReg8, write_reg8_fault s v h] using h0

@[simp] theorem setReg8_pc : (setReg8 s r v).pc = s.pc :=
  setReg8_lemma_aux s v (fun t => t.pc = s.pc) rfl (fun _ => rfl) (fun _ => rfl)
    (fun _ => rfl) (fun _ => rfl)
@[simp] theorem setReg8_sp : (setReg8 s r v).sp = s.sp :=
  setReg8_lemma_aux s v (fun t => t.sp = s.sp) rfl (fun _ => rfl) (fun _ => rfl)
    (fun _ => rfl) (fun _ => rfl)
@[simp] theorem setReg8_ime : (setReg8 s r v).ime = s.ime :=
  setReg8_lemma_aux s v (fun t => t.ime = s.ime) rfl (fun _ => rfl) (fun _ => rfl)
    (fun _ => rfl) (fun _ => rfl)
@[simp] theorem setReg8_mem : (setReg8 s r v).mem = s.mem :=
  setReg8_lemma_aux s v (fun t => t.mem = s.mem) rfl (fun _ => rfl) (fun _ => rfl)
    (fun _ => rfl) (fun _ => rfl)
@[simp] theorem setReg8_writes : (setReg8 s r v).writes = s.writes :=
  setReg8_lemma_aux s v (fun t => t.writes = s.writes) rfl (fun _ => rfl) (fun _ => rfl)
    (fun _ => rfl) (fun _ => rfl)
@[simp] theorem setReg8_reported : (setReg8 s r v).reported = s.reported :=
  setReg8_lemma_aux s v (fun t => t.reported = s.reported) rfl (fun _ => rfl) (fun _ => rfl)
    (fun _ => rfl) (fun _ => rfl)
@[simp] theorem setReg8_total : (setReg8 s r v).total_cycles = s.total_cycles :=
  setReg8_lemma_aux s v (fun t => t.total_cycles = s.total_cycles) rfl (fun _ => rfl)
    (fun _ => rfl) (fun _ => rfl) (fun _ => rfl)
@[simp] theorem setReg8_current : (setReg8 s r v).current_cycles = s.current_cycles :=
  setReg8_lemma_aux s v (fun t => t.current_cycles = s.current_cycles) rfl (fun _ => rfl)
    (fun _ => rfl) (fun _ => rfl) (fun _ => rfl)

/-- `write_reg8` never touches the flags byte. -/
theorem setReg8_af_lo : (setReg8 s r v).af % 256 = s.af % 256 := by
  by_cases h : validReg8 r
  · rcases validReg8_cases h with h | h | h | h | h | h | h <;> subst h <;>
      first | rfl | exact lo_write_hi _ _
  · simp [setReg8, write_reg8_fault s v h]

theorem getReg8_setReg8_same {r : Nat} (h : validReg8 r) :
    getReg8 (setReg8 s r v) r = v % 256 := by
  rcases validReg8_cases h with h | h | h | h | h | h | h <;> subst h
  · exact hi_write_hi _ _
  · show ((s.bc &&& 65280 ||| v % 256) &&& 255) % 256 = v % 256
    rw [and_255, Nat.mod_mod, lo_write_lo]
  · exact hi_write_hi _ _
  · show ((s.de &&& 65280 ||| v % 256) &&& 255) % 256 = v % 256
    rw [and_255, Nat.mod_mod, lo_write_lo]
  · exact hi_write_hi _ _
  · show ((s.hl &&& 65280 ||| v % 256) &&& 255) % 256 = v % 256
    rw [and_255, Nat.mod_mod, lo_write_lo]
  · exact hi_write_hi _ _

theorem getReg8_setReg8_other {r j : Nat} (h : validReg8 r) (hj : validReg8 j)
    (hne : j ≠ r) : getReg8 (setReg8 s r v) j = getReg8 s j := by
  rcases validReg8_cases h with h | h | h | h | h | h | h <;> subst h <;>
    rcases validReg8_cases hj with h | h | h | h | h | h | h <;> subst h <;>
    first
      | exact absurd rfl hne
      | rfl
      | exact hi_write_lo _ _
      | (show ((_ &&& 255 ||| (v % 256) <<< 8) &&& 255) % 256 = (_ &&& 255) % 256
         rw [and_255 (_ ||| _), Nat.mod_mod, lo_write_hi, and_255, Nat.mod_mod])

end regfile

/-! ## Flag updates -/

section flags

variable (s : State) (m r : Nat)

@[simp] theorem getReg8_af_or (hm : m < 256) : getReg8 (af_or s m) r = getReg8 s r := by
  by_cases h : validReg8 r
  · rcases validReg8_cases h with h | h | h | h | h | h | h <;> subst h <;>
      first | rfl | exact hi_or_lo _ _ hm
  · simp [getReg8, read_reg8_fault _ h]

@[simp] theorem getReg8_af_andnot (hm : m < 256) :
    getReg8 (af_andnot s m) r = getReg8 s r := by
  by_cases h : validReg8 r
  · rcases validReg8_cases h with h | h | h | h | h | h | h <;> subst h <;>
      first | rfl | exact hi_andnot_lo _ _ hm
  · simp [getReg8, read_reg8_fault _ h]

@[simp] theorem getReg8_ite (c : Prop) [Decidable c] (a b : State) :
    getReg8 (if c then a else b) r = if c then getReg8 a r else getReg8 b r := by
  split <;> rfl

end flags

/-! ## Projections through the state updates -/

theorem read_reg8_A (s : State) : read_reg8 s REG_A = .ok (getReg8 s REG_A) := rfl
theorem write_reg8_A (s : State) (v : Nat) : write_reg8 s REG_A v = .ok (setReg8 s REG_A v) := rfl

section proj
variable (c : Prop) [Decidable c] (a b s : State) (m v : Nat)
@[simp] theorem ite_pc : (if c then a else b).pc = if c then a.pc else b.pc := by split <;> rfl
@[simp] theorem ite_reported :
    (if c then a else b).reported = if c then a.reported else b.reported := by split <;> rfl
@[simp] theorem ite_total :
    (if c then a else b).total_cycles = if c then a.total_cycles else b.total_cycles := by
  split <;> rfl
@[simp] theorem ite_current :
    (if c then a else b).current_cycles = if c then a.current_cycles else b.current_cycles := by
  split <;> rfl
theorem ite_af : (if c then a else b).af = if c then a.af else b.af := by split <;> rfl
@[simp] theorem ite_af_nib :
    (if c then a else b).af &&& 15 = if c then a.af &&& 15 else b.af &&& 15 := by split <;> rfl

@[simp] theorem af_or_pc : (af_or s m).pc = s.pc := rfl
@[simp] theorem af_or_reported : (af_or s m).reported = s.reported := rfl
@[simp] theorem af_or_total : (af_or s m).total_cycles = s.total_cycles := rfl
@[simp] theorem af_or_current : (af_or s m).current_cycles = s.current_cycles := rfl
theorem af_or_af : (af_or s m).af = s.af ||| m := rfl
@[simp] theorem af_andnot_pc : (af_andnot s m).pc = s.pc := rfl
@[simp] theorem af_andnot_reported : (af_andnot s m).reported = s.reported := rfl
@[simp] theorem af_andnot_total : (af_andnot s m).total_cycles = s.total_cycles := rfl
@[simp] theorem af_andnot_current : (af_andnot s m).current_cycles = s.current_cycles := rfl
theorem af_andnot_af : (af_andnot s m).af = s.af &&& (65535 ^^^ m) := rfl
@[simp] theorem pc_add_pc : (pc_add s m).pc = (s.pc + m) % 65536 := rfl
@[simp] theorem pc_add_af : (pc_add s m).af = s.af := rfl
@[simp] theorem pc_add_reported : (pc_add s m).reported = s.reported := rfl
@[simp] theorem pc_add_total : (pc_add s m).total_cycles = s.total_cycles := rfl
@[simp] theorem pc_add_current : (pc_add s m).current_cycles = s.current_cycles := rfl
@[simp] theorem pc_sub_pc : (pc_sub s m).pc = (s.pc % 65536 + 65536 - m % 256) % 65536 := rfl
@[simp] theorem pc_sub_af : (pc_sub s m).af = s.af := rfl
@[simp] theorem pc_sub_reported : (pc_sub s m).reported = s.reported := rfl
@[simp] theorem pc_sub_total : (pc_sub s m).total_cycles = s.total_cycles := rfl
@[simp] theorem pc_sub_current : (pc_sub s m).current_cycles = s.current_cycles := rfl
@[simp] theorem write_byte_pc : (write_byte s m v).pc = s.pc := rfl
@[simp] theorem write_byte_af : (write_byte s m v).af = s.af := rfl
@[simp] theorem write_byte_reported : (write_byte s m v).reported = s.reported := rfl
@[simp] theorem write_byte_total : (write_byte s m v).total_cycles = s.total_cycles := rfl
@[simp] theorem write_byte_current : (write_byte s m v).current_cycles = s.current_cycles := rfl
end proj

section nib
theorem testBit_15 (i : Nat) : (15 : Nat).testBit i = decide (i < 4) := by
  have h := Nat.testBit_two_pow_sub_one 4 i
  simpa using h

theorem testBit_lo_of_dvd {m : Nat} (h : m % 16 = 0) {i : Nat} (hi : i < 4) :
    m.testBit i = false := by
  have h2 : (m % 2 ^ 4).testBit i = false := by
    have : m % 2 ^ 4 = 0 := by simpa using h
    rw [this]; simp
  rw [Nat.testBit_mod_two_pow] at h2
  simpa [hi] using h2

theorem testBit_lo_of_full {m : Nat} (h : m % 16 = 15) {i : Nat} (hi : i < 4) :
    m.testBit i = true := by
  have h2 : (m % 2 ^ 4).testBit i = true := by
    have : m % 2 ^ 4 = 15 := by simpa using h
    rw [this, testBit_15]; simpa using hi
  rw [Nat.testBit_mod_two_pow] at h2
  simpa [hi] using h2

@[simp] theorem or_nib (x m : Nat) (h : m % 16 = 0) : (x ||| m) &&& 15 = x &&& 15 := by
  apply Nat.eq_of_testBit_eq
  intro i
  simp only [Nat.testBit_and, Nat.testBit_or, testBit_15]
  by_cases hi : i < 4
  · simp [hi, testBit_lo_of_dvd h hi]
  · simp [hi]

@[simp] theorem and_nib (x m : Nat) (h : m % 16 = 15) : (x &&& m) &&& 15 = x &&& 15 := by
  apply Nat.eq_of_testBit_eq
  intro i
  simp only [Nat.testBit_and, Nat.testBit_or, testBit_15]
  by_cases hi : i < 4
  · simp [hi, testBit_lo_of_full h hi]
  · simp [hi]

theorem nib_of_mod {x y : Nat} (h : x % 256 = y % 256) : x &&& 15 = y &&& 15 := by
  have e : ∀ z : Nat, z &&& 15 = (z % 256) &&& 15 := by
    intro z
    apply Nat.eq_of_testBit_eq
    intro i
    simp only [Nat.testBit_and, mod_256_testBit, testBit_15]
    by_cases hi : i < 4
    · have : i < 8 := by omega
      simp [hi, this]
    · simp [hi]
  rw [e x, e y, h]

@[simp] theorem af_or_nib (s : State) (m : Nat) (h : m % 16 = 0) :
    (af_or s m).af &&& 15 = s.af &&& 15 := or_nib _ _ h

@[simp] theorem af_andnot_nib (s : State) (m : Nat) (h : m % 16 = 0) :
    (af_andnot s m).af &&& 15 = s.af &&& 15 := by
  show (s.af &&& (65535 ^^^ m)) &&& 15 = s.af &&& 15
  apply Nat.eq_of_testBit_eq
  intro i
  simp only [Nat.testBit_and, Nat.testBit_xor, testBit_15, testBit_65535]
  by_cases hi : i < 4
  · have : i < 16 := by omega
    simp [hi, this, testBit_lo_of_dvd h hi]
  · simp [hi]

@[simp] theorem setReg8_af_nib (s : State) (r v : Nat) :
    (setReg8 s r v).af &&& 15 = s.af &&& 15 :=
  nib_of_mod (setReg8_af_lo s r v)

/-- The literal masks the flag updates produce. -/
theorem mask_literals :
    (65535 ^^^ 128 = 65407) ∧ (65535 ^^^ 64 = 65471) ∧ (65535 ^^^ 32 = 65503) ∧
    (65535 ^^^ 16 = 65519) ∧ (64 ||| 32 = 96) ∧ (64 ||| 32 ||| 16 = 112) ∧
    (65535 ^^^ 112 = 65423) := by decide
end nib


/-! ## One step of every handler -/

section handlers

variable (s : State)

theorem flagSet_pc_add (k m : Nat) : flagSet (pc_add s k) m = flagSet s m := rfl

theorem reg16_cases (op : Nat) :
    (op >>> 4) &&& 3 = 0 ∨ (op >>> 4) &&& 3 = 1 ∨ (op >>> 4) &&& 3 = 2 ∨ (op >>> 4) &&& 3 = 3 := by
  have h : (op >>> 4) &&& 3 ≤ 3 := Nat.and_le_right
  omega

theorem nop_steps : ∃ s', nop s = .ok s' ∧ Steps s s' 1 ((s.pc + 1) % 65536) := by
  unfold nop
  refine ⟨_, rfl, ?_⟩
  simp [Steps]

theorem jp_nn_steps :
    ∃ s', jp_nn s = .ok s' ∧ Steps s s' 4 (read_word s (s.pc + 1) % 65536) := by
  unfold jp_nn
  refine ⟨_, rfl, ?_⟩
  simp [Steps]

theorem ld_r_r_steps (hx : validReg8 ((read_byte s s.pc >>> 3) &&& 7))
    (hy : validReg8 (read_byte s s.pc &&& 7)) :
    ∃ s', ld_r_r s = .ok s' ∧ Steps s s' 1 ((s.pc + 1) % 65536) := by
  unfold ld_r_r
  dsimp only [bind]
  rw [read_reg8_ok s hy]
  dsimp only [Except.bind]
  rw [write_reg8_ok _ _ hx]
  dsimp only [Except.bind, pure, Except.pure]
  refine ⟨_, rfl, ?_⟩
  simp [Steps]

theorem sbc_a_r_steps (h : validReg8 (read_byte s s.pc &&& 7)) :
    ∃ s', sbc_a_r s = .ok s' ∧ Steps s s' 1 ((s.pc + 1) % 65536) := by
  unfold sbc_a_r
  dsimp only [bind]
  rw [read_reg8_ok s h]
  dsimp only [Except.bind, read_reg8_A, write_reg8_A, pure, Except.pure]
  refine ⟨_, rfl, ?_⟩
  simp [Steps, FLAG_N, FLAG_ZF, FLAG_H, FLAG_CY, mask_literals]

theorem sub_r_steps (h : validReg8 (read_byte s s.pc &&& 7)) :
    ∃ s', sub_r s = .ok s' ∧ Steps s s' 1 ((s.pc + 1) % 65536) := by
  unfold sub_r
  dsimp only [bind]
  rw [read_reg8_ok s h]
  dsimp only [Except.bind, read_reg8_A, write_reg8_A, pure, Except.pure]
  refine ⟨_, rfl, ?_⟩
  simp [Steps, FLAG_N, FLAG_ZF, FLAG_H, FLAG_CY, mask_literals]

theorem dec_r_steps (h : validReg8 ((read_byte s s.pc >>> 3) &&& 7)) :
    ∃ s', dec_r s = .ok s' ∧ Steps s s' 1 ((s.pc + 1) % 65536) := by
  unfold dec_r
  dsimp only [bind]
  rw [read_reg8_ok s h]
  dsimp only [Except.bind]
  rw [write_reg8_ok _ _ h]
  dsimp only [Except.bind, pure, Except.pure]
  refine ⟨_, rfl, ?_⟩
  simp [Steps, FLAG_N, FLAG_ZF, FLAG_H, FLAG_CY, mask_literals]

theorem ld_r_xx_steps (h : validReg8 ((read_byte s s.pc >>> 3) &&& 7)) :
    ∃ s', ld_r_xx s = .ok s' ∧ Steps s s' 2 ((s.pc + 2) % 65536) := by
  unfold ld_r_xx
  dsimp only [bind]
  rw [write_reg8_ok _ _ h]
  dsimp only [Except.bind, pure, Except.pure]
  refine ⟨_, rfl, ?_⟩
  simp [Steps]

theorem inc_r_steps (h : validReg8 ((read_byte s s.pc >>> 3) &&& 7)) :
    ∃ s', inc_r s = .ok s' ∧ Steps s s' 1 ((s.pc + 1) % 65536) := by
  unfold inc_r
  dsimp only [bind]
  rw [read_reg8_ok s h]
  dsimp only [Except.bind]
  rw [write_reg8_ok _ _ h]
  dsimp only [Except.bind, pure, Except.pure]
  refine ⟨_, rfl, ?_⟩
  simp [Steps, FLAG_N, FLAG_ZF, FLAG_H, FLAG_CY, mask_literals]

theorem jr_e_steps :
    ∃ s', jr_e s = .ok s' ∧ Steps s s' 3 (jrTarget s.pc (read_byte s (s.pc + 1))) := by
  unfold jr_e jrTarget
  dsimp only
  split_ifs with h <;> refine ⟨_, rfl, ?_⟩ <;> simp [Steps]

theorem ld_r_hl_steps (h : validReg8 ((read_byte s s.pc >>> 3) &&& 7)) :
    ∃ s', ld_r_hl s = .ok s' ∧ Steps s s' 2 ((s.pc + 1) % 65536) := by
  unfold ld_r_hl
  dsimp only [bind]
  rw [write_reg8_ok _ _ h]
  dsimp only [Except.bind, pure, Except.pure]
  refine ⟨_, rfl, ?_⟩
  simp [Steps]

theorem ld_r_xxxx_steps :
    ∃ s', ld_r_xxxx s = .ok s' ∧ Steps s s' 3 ((s.pc + 3) % 65536) := by
  unfold ld_r_xxxx
  dsimp only [bind]
  rcases reg16_cases (read_byte s s.pc) with h | h | h | h <;> rw [h] <;>
    exact ⟨_, rfl, by simp [Steps]⟩

theorem cpl_steps : ∃ s', cpl s = .ok s' ∧ Steps s s' 1 ((s.pc + 1) % 65536) := by
  unfold cpl
  dsimp only [bind, Except.bind, read_reg8_A, write_reg8_A, pure, Except.pure]
  refine ⟨_, rfl, ?_⟩
  simp [Steps, FLAG_N, FLAG_H, mask_literals]

theorem ld_bc_a_steps : ∃ s', ld_bc_a s = .ok s' ∧ Steps s s' 2 ((s.pc + 1) % 65536) := by
  unfold ld_bc_a
  dsimp only [bind, Except.bind, read_reg8_A, pure, Except.pure]
  refine ⟨_, rfl, ?_⟩
  simp [Steps]

theorem inc_r16_steps : ∃ s', inc_r16 s = .ok s' ∧ Steps s s' 2 ((s.pc + 1) % 65536) := by
  unfold inc_r16
  dsimp only [bind]
  rcases reg16_cases (read_byte s s.pc) with h | h | h | h <;> rw [h] <;>
    exact ⟨_, rfl, by simp [Steps]⟩

theorem xor_r_steps (h : validReg8 (read_byte s s.pc &&& 7)) :
    ∃ s', xor_r s = .ok s' ∧ Steps s s' 1 ((s.pc + 1) % 65536) := by
  unfold xor_r
  dsimp only [bind]
  rw [read_reg8_ok s h]
  dsimp only [Except.bind, read_reg8_A, write_reg8_A, pure, Except.pure]
  refine ⟨_, rfl, ?_⟩
  simp [Steps, FLAG_N, FLAG_ZF, FLAG_H, FLAG_CY, mask_literals]

theorem ldd_hl_a_steps : ∃ s', ldd_hl_a s = .ok s' ∧ Steps s s' 2 ((s.pc + 1) % 65536) := by
  unfold ldd_hl_a
  dsimp only [bind, Except.bind, read_reg8_A, pure, Except.pure]
  refine ⟨_, rfl, ?_⟩
  simp [Steps]

theorem jr_nz_steps :
    ∃ s', jr_nz s = .ok s' ∧
      Steps s s' (if flagSet s FLAG_ZF then 2 else 3)
        (if flagSet s FLAG_ZF then (s.pc + 2) % 65536
         else jrTarget s.pc (read_byte s (s.pc + 1))) := by
  unfold jr_nz jrTarget
  dsimp only [flagSet_pc_add]
  split_ifs with h1 h2 <;> refine ⟨_, rfl, ?_⟩ <;> simp [Steps]

theorem di_steps : ∃ s', di s = .ok s' ∧ Steps s s' 1 ((s.pc + 1) % 65536) := by
  unfold di
  refine ⟨_, rfl, ?_⟩
  simp [Steps]

theorem ldh_a8_a_steps : ∃ s', ldh_a8_a s = .ok s' ∧ Steps s s' 3 ((s.pc + 2) % 65536) := by
  unfold ldh_a8_a
  dsimp only [bind, Except.bind, read_reg8_A, pure, Except.pure]
  refine ⟨_, rfl, ?_⟩
  simp [Steps]

theorem cp_xx_steps : ∃ s', cp_xx s = .ok s' ∧ Steps s s' 2 ((s.pc + 2) % 65536) := by
  unfold cp_xx
  dsimp only [bind, Except.bind, read_reg8_A, pure, Except.pure]
  refine ⟨_, rfl, ?_⟩
  simp [Steps, FLAG_N, FLAG_ZF, FLAG_H, FLAG_CY, mask_literals]

theorem jr_z_steps :
    ∃ s', jr_z s = .ok s' ∧
      Steps s s' (if flagSet s FLAG_ZF then 3 else 2)
        (if flagSet s FLAG_ZF then jrTarget s.pc (read_byte s (s.pc + 1))
         else (s.pc + 2) % 65536) := by
  unfold jr_z jrTarget
  dsimp only [flagSet_pc_add]
  split_ifs with h1 h2 <;> refine ⟨_, rfl, ?_⟩ <;> simp_all [Steps]

theorem ld_a16_a_steps : ∃ s', ld_a16_a s = .ok s' ∧ Steps s s' 4 ((s.pc + 3) % 65536) := by
  unfold ld_a16_a
  dsimp only [bind, Except.bind, read_reg8_A, pure, Except.pure]
  refine ⟨_, rfl, ?_⟩
  simp [Steps]

theorem ldh_a_a8_steps : ∃ s', ldh_a_a8 s = .ok s' ∧ Steps s s' 3 ((s.pc + 2) % 65536) := by
  unfold ldh_a_a8
  dsimp only [bind, Except.bind, write_reg8_A, pure, Except.pure]
  refine ⟨_, rfl, ?_⟩
  simp [Steps]

end handlers

/-! ## Flags after the subtraction handlers -/

/-- Bits 4-7 of the literal masks the flag updates use. -/
theorem flag_bit_literals :
    (Nat.testBit 16 4 = true) ∧ (Nat.testBit 16 5 = false) ∧ (Nat.testBit 16 6 = false) ∧
    (Nat.testBit 16 7 = false) ∧ (Nat.testBit 32 4 = false) ∧ (Nat.testBit 32 5 = true) ∧
    (Nat.testBit 32 6 = false) ∧ (Nat.testBit 32 7 = false) ∧ (Nat.testBit 64 4 = false) ∧
    (Nat.testBit 64 5 = false) ∧ (Nat.testBit 64 6 = true) ∧ (Nat.testBit 64 7 = false) ∧
    (Nat.testBit 128 4 = false) ∧ (Nat.testBit 128 5 = false) ∧ (Nat.testBit 128 6 = false) ∧
    (Nat.testBit 128 7 = true) ∧ (Nat.testBit 96 4 = false) ∧ (Nat.testBit 96 5 = true) ∧
    (Nat.testBit 96 6 = true) ∧ (Nat.testBit 96 7 = false) ∧ (Nat.testBit 112 4 = true) ∧
    (Nat.testBit 112 5 = true) ∧ (Nat.testBit 112 6 = true) ∧ (Nat.testBit 112 7 = false) ∧
    (Nat.testBit 65519 4 = false) ∧ (Nat.testBit 65519 5 = true) ∧
    (Nat.testBit 65519 6 = true) ∧ (Nat.testBit 65519 7 = true) ∧
    (Nat.testBit 65503 4 = true) ∧ (Nat.testBit 65503 5 = false) ∧
    (Nat.testBit 65503 6 = true) ∧ (Nat.testBit 65503 7 = true) ∧
    (Nat.testBit 65471 4 = true) ∧ (Nat.testBit 65471 5 = true) ∧
    (Nat.testBit 65471 6 = false) ∧ (Nat.testBit 65471 7 = true) ∧
    (Nat.testBit 65407 4 = true) ∧ (Nat.testBit 65407 5 = true) ∧
    (Nat.testBit 65407 6 = true) ∧ (Nat.testBit 65407 7 = false) ∧
    (Nat.testBit 65423 4 = false) ∧ (Nat.testBit 65423 5 = false) ∧
    (Nat.testBit 65423 6 = false) ∧ (Nat.testBit 65423 7 = true) := by decide

section flagbits
variable (s : State) (c : Prop) [Decidable c] (a b : State) (m r v k : Nat)

theorem flagSet_ZF : flagSet s 128 = s.af.testBit 7 := and_two_pow_ne_zero s.af 7
theorem flagSet_N : flagSet s 64 = s.af.testBit 6 := and_two_pow_ne_zero s.af 6
theorem flagSet_H : flagSet s 32 = s.af.testBit 5 := and_two_pow_ne_zero s.af 5
theorem flagSet_CY : flagSet s 16 = s.af.testBit 4 := and_two_pow_ne_zero s.af 4

theorem testBit_lo_of_mod {x y : Nat} (h : x % 256 = y % 256) {k : Nat} (hk : k < 8) :
    x.testBit k = y.testBit k := by
  have hx := mod_256_testBit x k
  have hy := mod_256_testBit y k
  simp only [hk, decide_True, Bool.true_and] at hx hy
  rw [← hx, ← hy, h]

theorem setReg8_testBit (hk : k < 8) : (setReg8 s r v).af.testBit k = s.af.testBit k :=
  testBit_lo_of_mod (setReg8_af_lo s r v) hk

theorem ite_testBit :
    (if c then a else b).af.testBit k = if c then a.af.testBit k else b.af.testBit k := by
  split <;> rfl

theorem af_or_testBit : (af_or s m).af.testBit k = (s.af.testBit k || m.testBit k) :=
  Nat.testBit_or _ _ _

theorem af_andnot_testBit :
    (af_andnot s m).af.testBit k = (s.af.testBit k && (65535 ^^^ m).testBit k) :=
  Nat.testBit_and _ _ _

@[simp] theorem getReg8_count_cycles (n : Int) :
    getReg8 (count_cycles s n) r = getReg8 s r := by
  have e : read_reg8 (count_cycles s n) r = (read_reg8 s r).mapError (fun _ => count_cycles s n) := by
    unfold read_reg8
    simp only [count_cycles_af, count_cycles_bc, count_cycles_de, count_cycles_hl]
    split_ifs <;> rfl
  unfold getReg8
  rw [e]
  cases read_reg8 s r <;> rfl

@[simp] theorem getReg8_pc_add : getReg8 (pc_add s k) r = getReg8 s r := by
  unfold getReg8 read_reg8
  split_ifs <;> rfl

end flagbits

theorem sub_r_effect (s : State) (h : validReg8 (read_byte s s.pc &&& 7)) :
    ∃ s', sub_r s = .ok s' ∧
      getReg8 s' REG_A = (getReg8 s REG_A + 256 - getReg8 s (read_byte s s.pc &&& 7)) % 256 ∧
      flagSet s' FLAG_ZF =
        decide ((getReg8 s REG_A + 256 - getReg8 s (read_byte s s.pc &&& 7)) % 256 = 0) ∧
      flagSet s' FLAG_N = true ∧
      flagSet s' FLAG_H =
        decide ((getReg8 s REG_A + 256 - getReg8 s (read_byte s s.pc &&& 7)) % 256 &&& 0x0F
          < getReg8 s REG_A &&& 0x0F) ∧
      flagSet s' FLAG_CY =
        decide ((getReg8 s REG_A + 256 - getReg8 s (read_byte s s.pc &&& 7)) % 256
          > getReg8 s REG_A) := by
  unfold sub_r
  dsimp only [bind]
  rw [read_reg8_ok s h]
  dsimp only [Except.bind, read_reg8_A, write_reg8_A, pure, Except.pure]
  refine ⟨_, rfl, ?_, ?_, ?_, ?_, ?_⟩
  · simp [getReg8_setReg8_same, show validReg8 REG_A from by decide, FLAG_N, FLAG_ZF, FLAG_H,
      FLAG_CY]
  all_goals
    simp [flagSet_pc_add, flagSet_ZF, flagSet_N, flagSet_H, flagSet_CY, setReg8_testBit,
      ite_testBit, af_or_testBit, af_andnot_testBit, FLAG_N, FLAG_ZF, FLAG_H, FLAG_CY,
      mask_literals, flag_bit_literals]

/-! ## Dispatch -/

set_option maxRecDepth 1000000 in
/-- Every populated table entry decodes register selectors the register file accepts. -/
theorem decode_valid : ∀ op < 256,
    (opcodeEntry op = some .ld_r_r → validReg8 ((op >>> 3) &&& 7) ∧ validReg8 (op &&& 7)) ∧
    (opcodeEntry op = some .sbc_a_r → validReg8 (op &&& 7)) ∧
    (opcodeEntry op = some .sub_r → validReg8 (op &&& 7)) ∧
    (opcodeEntry op = some .xor_r → validReg8 (op &&& 7)) ∧
    (opcodeEntry op = some .dec_r → validReg8 ((op >>> 3) &&& 7)) ∧
    (opcodeEntry op = some .ld_r_xx → validReg8 ((op >>> 3) &&& 7)) ∧
    (opcodeEntry op = some .inc_r → validReg8 ((op >>> 3) &&& 7)) ∧
    (opcodeEntry op = some .ld_r_hl → validReg8 ((op >>> 3) &&& 7)) := by
  decide

theorem read_byte_lt (s : State) (a : Nat) : read_byte s a < 256 :=
  Nat.mod_lt _ (by norm_num)

theorem cpu_cycle_eq (s : State) (h : Handler)
    (hop : opcodeEntry (read_byte s s.pc) = some h) : cpu_cycle s = h.run s := by
  unfold cpu_cycle
  simp only [hop]

theorem sbc_a_r_effect (s : State) (h : validReg8 (read_byte s s.pc &&& 7)) :
    ∃ s', sbc_a_r s = .ok s' ∧
      getReg8 s' REG_A =
        (if flagSet s FLAG_CY then
          ((getReg8 s REG_A + 256 - getReg8 s (read_byte s s.pc &&& 7)) % 256 + 255) % 256
         else (getReg8 s REG_A + 256 - getReg8 s (read_byte s s.pc &&& 7)) % 256) ∧
      flagSet s' FLAG_H =
        decide ((if flagSet s FLAG_CY then
          ((getReg8 s REG_A + 256 - getReg8 s (read_byte s s.pc &&& 7)) % 256 + 255) % 256
         else (getReg8 s REG_A + 256 - getReg8 s (read_byte s s.pc &&& 7)) % 256) &&& 0x0F
          < getReg8 s REG_A &&& 0x0F) ∧
      flagSet s' FLAG_CY =
        decide ((if flagSet s FLAG_CY then
          ((getReg8 s REG_A + 256 - getReg8 s (read_byte s s.pc &&& 7)) % 256 + 255) % 256
         else (getReg8 s REG_A + 256 - getReg8 s (read_byte s s.pc &&& 7)) % 256)
          > getReg8 s REG_A) := by
  unfold sbc_a_r
  dsimp only [bind]
  rw [read_reg8_ok s h]
  dsimp only [Except.bind, read_reg8_A, write_reg8_A, pure, Except.pure]
  refine ⟨_, rfl, ?_, ?_, ?_⟩
  · simp [getReg8_setReg8_same, show validReg8 REG_A from by decide, FLAG_N, FLAG_ZF, FLAG_H,
      FLAG_CY]
    split_ifs <;> omega
  all_goals
    simp [flagSet_pc_add, flagSet_ZF, flagSet_N, flagSet_H, flagSet_CY, setReg8_testBit,
      ite_testBit, af_or_testBit, af_andnot_testBit, FLAG_N, FLAG_ZF, FLAG_H, FLAG_CY,
      mask_literals, flag_bit_literals]

theorem cp_xx_effect (s : State) :
    ∃ s', cp_xx s = .ok s' ∧
      getReg8 s' REG_A = getReg8 s REG_A ∧
      flagSet s' FLAG_H =
        decide ((getReg8 s REG_A + 256 - read_byte s (s.pc + 1)) % 256 &&& 0x0F
          < getReg8 s REG_A &&& 0x0F) ∧
      flagSet s' FLAG_CY =
        decide ((getReg8 s REG_A + 256 - read_byte s (s.pc + 1)) % 256 > getReg8 s REG_A) := by
  unfold cp_xx
  dsimp only [bind, Except.bind, read_reg8_A, pure, Except.pure]
  refine ⟨_, rfl, ?_, ?_, ?_⟩
  · simp [FLAG_N, FLAG_ZF, FLAG_H, FLAG_CY]
  all_goals
    simp [flagSet_pc_add, flagSet_ZF, flagSet_N, flagSet_H, flagSet_CY, setReg8_testBit,
      ite_testBit, af_or_testBit, af_andnot_testBit, FLAG_N, FLAG_ZF, FLAG_H, FLAG_CY,
      mask_literals, flag_bit_literals]

/-- One `cpu_cycle` step on a populated opcode: no fault, and the bookkeeping
every handler does. -/
theorem handler_steps (s : State) (h : Handler)
    (hop : opcodeEntry (read_byte s s.pc) = some h) :
    ∃ s', cpu_cycle s = .ok s' ∧ Steps s s' (h.cost s) (h.nextPc s) := by
  rw [cpu_cycle_eq s h hop]
  have hd := decode_valid (read_byte s s.pc) (read_byte_lt s s.pc)
  obtain ⟨h1, h2, h3, h4, h5, h6, h7, h8⟩ := hd
  cases h
  · exact nop_steps s
  · exact jp_nn_steps s
  · exact ld_r_r_steps s (h1 hop).1 (h1 hop).2
  · exact sbc_a_r_steps s (h2 hop)
  · exact sub_r_steps s (h3 hop)
  · exact dec_r_steps s (h5 hop)
  · exact ld_r_xx_steps s (h6 hop)
  · exact inc_r_steps s (h7 hop)
  · exact jr_e_steps s
  · exact ld_r_hl_steps s (h8 hop)
  · exact ld_r_xxxx_steps s
  · exact cpl_steps s
  · exact ld_bc_a_steps s
  · exact inc_r16_steps s
  · exact xor_r_steps s (h4 hop)
  · exact ldd_hl_a_steps s
  · exact jr_nz_steps s
  · exact di_steps s
  · exact ldh_a8_a_steps s
  · exact cp_xx_steps s
  · exact jr_z_steps s
  · exact ld_a16_a_steps s
  · exact ldh_a_a8_steps s

/-! ## Subtraction flags (C1, C2, C3) -/

/-- C1 (evaluation at the failing inputs): `sub b` (0x90) and `cp 0x01` (0xFE)
from A = 0x10 with operand 0x01, and `sbc a,b` (0x98) from A = 0x10, B = 0x01 with
carry clear, all leave the half-carry flag clear although the low nibble of A (0)
is below the low nibble of the operand (1): the handlers compare the low nibble
of the result with that of A the wrong way round. -/
theorem sub_half_carry_at_failing_input :
    (∃ s', cpu_cycle (exampleState 0x1000 0x0100 [0x90]) = .ok s' ∧
      flagSet s' FLAG_H = false ∧
      getReg8 (exampleState 0x1000 0x0100 [0x90]) REG_A = 0x10 ∧
      getReg8 (exampleState 0x1000 0x0100 [0x90]) REG_B = 0x01 ∧
      (0x10 &&& 0x0F) < (0x01 &&& 0x0F)) ∧
    (∃ s', cpu_cycle (exampleState 0x1000 0 [0xFE, 0x01]) = .ok s' ∧
      flagSet s' FLAG_H = false ∧
      getReg8 (exampleState 0x1000 0 [0xFE, 0x01]) REG_A = 0x10 ∧
      read_byte (exampleState 0x1000 0 [0xFE, 0x01]) 0x0101 = 0x01 ∧
      (0x10 &&& 0x0F) < (0x01 &&& 0x0F)) ∧
    (∃ s', cpu_cycle (exampleState 0x1000 0x0100 [0x98]) = .ok s' ∧
      flagSet s' FLAG_H = false ∧
      getReg8 (exampleState 0x1000 0x0100 [0x98]) REG_A = 0x10 ∧
      getReg8 (exampleState 0x1000 0x0100 [0x98]) REG_B = 0x01 ∧
      flagSet (exampleState 0x1000 0x0100 [0x98]) FLAG_CY = false ∧
      (0x10 &&& 0x0F) < (0x01 &&& 0x0F) + 0) := by
  refine ⟨?_, ?_, ?_⟩
  · obtain ⟨s', h1, -, -, -, hH, -⟩ :=
      sub_r_effect (exampleState 0x1000 0x0100 [0x90]) (by decide)
    refine ⟨s', ?_, ?_, by decide, by decide, by decide⟩
    · rw [cpu_cycle_eq _ .sub_r (by decide)]; exact h1
    · rw [hH]; decide
  · obtain ⟨s', h1, -, hH, -⟩ := cp_xx_effect (exampleState 0x1000 0 [0xFE, 0x01])
    refine ⟨s', ?_, ?_, by decide, by decide, by decide⟩
    · rw [cpu_cycle_eq _ .cp_xx (by decide)]; exact h1
    · rw [hH]; decide
  · obtain ⟨s', h1, -, hH, -⟩ :=
      sbc_a_r_effect (exampleState 0x1000 0x0100 [0x98]) (by decide)
    refine ⟨s', ?_, ?_, by decide, by decide, by decide, by decide⟩
    · rw [cpu_cycle_eq _ .sbc_a_r (by decide)]; exact h1
    · rw [hH]; decide

/-- The `sub r` opcodes of the table. -/
theorem sub_r_opcodes :
    ∀ op ∈ [0x90, 0x91, 0x92, 0x93, 0x94, 0x95, 0x97],
      opcodeEntry op = some .sub_r ∧ validReg8 (op &&& 7) := by decide

/-- C2: after `sub r` (0x90-0x95, 0x97) with A in the accumulator and `v` in
register `r`, and after `cp n` (0xFE) with `n = v`, the carry flag is set iff
A < v; the handlers' test `(A - v) mod 256 > A` on bytes is that comparison. -/
theorem sub_cp_carry_iff_borrow (s : State) (A v : Nat)
    (hA : read_reg8 s REG_A = .ok A) :
    (read_byte s s.pc ∈ [0x90, 0x91, 0x92, 0x93, 0x94, 0x95, 0x97] →
      read_reg8 s (read_byte s s.pc &&& 7) = .ok v →
      ∃ s', cpu_cycle s = .ok s' ∧ (flagSet s' FLAG_CY = true ↔ A < v)) ∧
    (read_byte s s.pc = 0xFE → read_byte s (s.pc + 1) = v →
      ∃ s', cpu_cycle s = .ok s' ∧ (flagSet s' FLAG_CY = true ↔ A < v)) ∧
    (A < 256 → v < 256 → ((A + 256 - v) % 256 > A ↔ A < v)) := by
  have hA' : getReg8 s REG_A = A := by
    have := read_reg8_A s
    rw [hA] at this
    exact (Except.ok.inj this).symm
  have hAlt : A < 256 := hA' ▸ getReg8_lt s REG_A
  refine ⟨?_, ?_, ?_⟩
  · intro hop hv
    obtain ⟨hent, hval⟩ := sub_r_opcodes _ hop
    have hv' : getReg8 s (read_byte s s.pc &&& 7) = v := by
      have := read_reg8_ok s hval
      rw [hv] at this
      exact (Except.ok.inj this).symm
    have hvlt : v < 256 := hv' ▸ getReg8_lt s _
    obtain ⟨s', h1, -, -, -, -, hC⟩ := sub_r_effect s hval
    refine ⟨s', ?_, ?_⟩
    · rw [cpu_cycle_eq s .sub_r hent]; exact h1
    · rw [hC, hA', hv', decide_eq_true_iff]
      omega
  · intro hop hv
    have hvlt : v < 256 := hv ▸ read_byte_lt s _
    obtain ⟨s', h1, -, -, hC⟩ := cp_xx_effect s
    refine ⟨s', ?_, ?_⟩
    · rw [cpu_cycle_eq s .cp_xx (by rw [hop]; decide)]; exact h1
    · rw [hC, hA', hv, decide_eq_true_iff]
      omega
  · intro h1 h2
    omega

/-- C2 at concrete inputs: `sub b` from A = 0x10, B = 0x20 and `cp 0x05` from
A = 0x10. -/
theorem sub_cp_carry_iff_borrow_witness :
    (∃ s', cpu_cycle (exampleState 0x1000 0x2000 [0x90]) = .ok s' ∧
      (flagSet s' FLAG_CY = true ↔ 0x10 < 0x20)) ∧
    (∃ s', cpu_cycle (exampleState 0x1000 0 [0xFE, 0x05]) = .ok s' ∧
      (flagSet s' FLAG_CY = true ↔ 0x10 < 0x05)) :=
  ⟨(sub_cp_carry_iff_borrow (exampleState 0x1000 0x2000 [0x90]) 0x10 0x20 rfl).1
      (by decide) rfl,
   (sub_cp_carry_iff_borrow (exampleState 0x1000 0 [0xFE, 0x05]) 0x10 0x05 rfl).2.1
      (by decide) (by decide)⟩

/-- C3 (evaluation at the failing inputs): `sbc a,b` (0x98) from A = 0x00,
B = 0xFF with the carry flag set, and `sbc a,a` (0x9F) from A = 0xFF with the
carry flag set, both leave the carry flag clear although A < r + 1: the wrapped
result equals A, so the handler's test `result > A` misses the borrow. -/
theorem sbc_carry_at_failing_input :
    (∃ s', cpu_cycle (exampleState 0x0010 0xFF00 [0x98]) = .ok s' ∧
      flagSet s' FLAG_CY = false ∧
      getReg8 (exampleState 0x0010 0xFF00 [0x98]) REG_A = 0x00 ∧
      getReg8 (exampleState 0x0010 0xFF00 [0x98]) REG_B = 0xFF ∧
      flagSet (exampleState 0x0010 0xFF00 [0x98]) FLAG_CY = true ∧
      0x00 < 0xFF + 1) ∧
    (∃ s', cpu_cycle (exampleState 0xFF10 0 [0x9F]) = .ok s' ∧
      flagSet s' FLAG_CY = false ∧
      getReg8 (exampleState 0xFF10 0 [0x9F]) REG_A = 0xFF ∧
      flagSet (exampleState 0xFF10 0 [0x9F]) FLAG_CY = true ∧
      0xFF < 0xFF + 1) := by
  refine ⟨?_, ?_⟩
  · obtain ⟨s', h1, -, -, hC⟩ :=
      sbc_a_r_effect (exampleState 0x0010 0xFF00 [0x98]) (by decide)
    refine ⟨s', ?_, ?_, by decide, by decide, by decide, by decide⟩
    · rw [cpu_cycle_eq _ .sbc_a_r (by decide)]; exact h1
    · rw [hC]; decide
  · obtain ⟨s', h1, -, -, hC⟩ :=
      sbc_a_r_effect (exampleState 0xFF10 0 [0x9F]) (by decide)
    refine ⟨s', ?_, ?_, by decide, by decide, by decide⟩
    · rw [cpu_cycle_eq _ .sbc_a_r (by decide)]; exact h1
    · rw [hC]; decide

/-! ## The flags byte and the register file (C4, C5) -/

/-- C4: the low nibble of the flags byte is zero after `cpu_start`, and one
`cpu_cycle` step on a populated opcode keeps it zero (the step does not fault);
the four flag masks lie in bits 4-7, and `write_reg8` of the accumulator keeps
the low byte of `af`. -/
theorem flags_low_nibble_invariant (cfg : Config) (s0 s : State) (h : Handler)
    (hinv : s.af &&& 0x000F = 0)
    (hop : opcodeEntry (read_byte s s.pc) = some h) :
    (cpu_start cfg s0).af &&& 0x000F = 0 ∧
    (∃ s', cpu_cycle s = .ok s' ∧ s'.af &&& 0x000F = 0) ∧
    (FLAG_ZF &&& 0xF0 = FLAG_ZF ∧ FLAG_N &&& 0xF0 = FLAG_N ∧ FLAG_H &&& 0xF0 = FLAG_H ∧
      FLAG_CY &&& 0xF0 = FLAG_CY) ∧
    (∀ v, ∃ s1, write_reg8 s REG_A v = .ok s1 ∧ s1.af &&& 0x00FF = s.af &&& 0x00FF) := by
  refine ⟨show (0x01B0 &&& 0x000F : Nat) = 0 by decide, ?_, by decide, ?_⟩
  · obtain ⟨s', h1, h2, -⟩ := handler_steps s h hop
    exact ⟨s', h1, h2.trans hinv⟩
  · intro v
    refine ⟨_, write_reg8_A s v, ?_⟩
    rw [and_255, and_255]
    exact setReg8_af_lo s REG_A v

/-- C4 at a concrete input: `nop` from the post-boot flags. -/
theorem flags_low_nibble_invariant_witness :
    (cpu_start ⟨false, 4194304, 8388608, 0⟩ zeroState).af &&& 0x000F = 0 ∧
    (∃ s', cpu_cycle (exampleState 0x01B0 0x0013 [0x00]) = .ok s' ∧ s'.af &&& 0x000F = 0) ∧
    (FLAG_ZF &&& 0xF0 = FLAG_ZF ∧ FLAG_N &&& 0xF0 = FLAG_N ∧ FLAG_H &&& 0xF0 = FLAG_H ∧
      FLAG_CY &&& 0xF0 = FLAG_CY) ∧
    (∀ v, ∃ s1, write_reg8 (exampleState 0x01B0 0x0013 [0x00]) REG_A v = .ok s1 ∧
      s1.af &&& 0x00FF = (exampleState 0x01B0 0x0013 [0x00]).af &&& 0x00FF) :=
  flags_low_nibble_invariant ⟨false, 4194304, 8388608, 0⟩ zeroState
    (exampleState 0x01B0 0x0013 [0x00]) .nop (by decide) (by decide)

/-- C5: writing a 16-bit pair and reading its halves gives the high and low
byte, and reading the pair gives the word back; writing an 8-bit register and
reading it gives the byte back, and leaves every other 8-bit register, the
flags byte, `sp` and `pc` as they were. -/
theorem reg_pair_round_trip (s : State) (p w i v : Nat)
    (hp : p ∈ [REG_BC, REG_DE, REG_HL]) (hw : w < 65536)
    (hi : i ∈ [0, 1, 2, 3, 4, 5, 7]) (hv : v < 256) :
    (∃ s1, write_reg16 s p w = .ok s1 ∧
      read_reg8 s1 (2 * p) = .ok (w >>> 8) ∧
      read_reg8 s1 (2 * p + 1) = .ok (w &&& 0xFF) ∧
      read_reg16 s1 p = .ok w) ∧
    (∃ s2, write_reg8 s i v = .ok s2 ∧
      read_reg8 s2 i = .ok v ∧
      (∀ j ∈ [0, 1, 2, 3, 4, 5, 7], j ≠ i → read_reg8 s2 j = read_reg8 s j) ∧
      s2.af &&& 0xFF = s.af &&& 0xFF ∧ s2.sp = s.sp ∧ s2.pc = s.pc) := by
  constructor
  · have h1 : w % 65536 = w := Nat.mod_eq_of_lt hw
    have h2 : (w >>> 8) % 256 = w >>> 8 := by
      rw [Nat.shiftRight_eq_div_pow]
      apply Nat.mod_eq_of_lt
      omega
    have h3 : (w &&& 255) % 256 = w &&& 255 := by
      rw [and_255, Nat.mod_mod]
    simp only [List.mem_cons, List.mem_singleton, List.not_mem_nil, or_false] at hp
    rcases hp with hp | hp | hp <;> subst hp
    · exact ⟨_, rfl, by simp [read_reg8, REG_BC, REG_A, REG_B, h1, h2],
        by simp [read_reg8, REG_BC, REG_A, REG_B, REG_C, h1, h3],
        by simp [read_reg16, REG_BC, h1]⟩
    · exact ⟨_, rfl, by simp [read_reg8, REG_DE, REG_A, REG_B, REG_C, REG_D, h1, h2],
        by simp [read_reg8, REG_DE, REG_A, REG_B, REG_C, REG_D, REG_E, h1, h3],
        by simp [read_reg16, REG_DE, REG_BC, h1]⟩
    · exact ⟨_, rfl,
        by simp [read_reg8, REG_HL, REG_A, REG_B, REG_C, REG_D, REG_E, REG_H, h1, h2],
        by simp [read_reg8, REG_HL, REG_A, REG_B, REG_C, REG_D, REG_E, REG_H, REG_L, h1, h3],
        by simp [read_reg16, REG_HL, REG_BC, REG_DE, h1]⟩
  · have hval : validReg8 i := hi
    refine ⟨_, write_reg8_ok s v hval, ?_, ?_, ?_, setReg8_sp s i v, setReg8_pc s i v⟩
    · rw [read_reg8_ok _ hval, getReg8_setReg8_same s v hval, Nat.mod_eq_of_lt hv]
    · intro j hj hne
      have hjv : validReg8 j := hj
      rw [read_reg8_ok _ hjv, read_reg8_ok _ hjv, getReg8_setReg8_other s v hval hjv hne]
    · rw [and_255, and_255]
      exact setReg8_af_lo s i v

/-- C5 at a concrete input: writing 0x1234 to HL, and 0x56 to register C. -/
theorem reg_pair_round_trip_witness :
    (∃ s1, write_reg16 zeroState REG_HL 0x1234 = .ok s1 ∧
      read_reg8 s1 (2 * REG_HL) = .ok (0x1234 >>> 8) ∧
      read_reg8 s1 (2 * REG_HL + 1) = .ok (0x1234 &&& 0xFF) ∧
      read_reg16 s1 REG_HL = .ok 0x1234) ∧
    (∃ s2, write_reg8 zeroState 1 0x56 = .ok s2 ∧
      read_reg8 s2 1 = .ok 0x56 ∧
      (∀ j ∈ [0, 1, 2, 3, 4, 5, 7], j ≠ 1 → read_reg8 s2 j = read_reg8 zeroState j) ∧
      s2.af &&& 0xFF = zeroState.af &&& 0xFF ∧ s2.sp = zeroState.sp ∧
      s2.pc = zeroState.pc) :=
  reg_pair_round_trip zeroState REG_HL 0x1234 1 0x56 (by decide) (by decide) (by decide)
    (by decide)

/-! ## Relative jumps (C6, C7) -/

set_option maxRecDepth 1000000 in
theorem byte_sign_bit : ∀ e < 256, (e &&& 0x80 ≠ 0 ↔ 128 ≤ e) ∧ (e ^^^ 0xFF) % 256 = 255 - e := by
  decide

/-- The two branches of the relative jumps compute `pc + 2 + signed(e)`. -/
theorem jrTarget_signed (pc e : Nat) (he : e < 256) :
    (jrTarget pc e : Int) = ((pc : Int) + 2 + signed8 e) % 65536 := by
  obtain ⟨h1, h2⟩ := byte_sign_bit e he
  unfold jrTarget signed8
  by_cases h : 128 ≤ e
  · rw [if_pos (h1.mpr h), h2, if_neg (by omega)]
    omega
  · rw [if_neg (fun hc => h (h1.mp hc)), if_pos (by omega)]
    omega

/-- The registers and flags a relative jump leaves alone, and that it does not fault. -/
theorem jr_frame (s : State) :
    (∃ s', jr_e s = .ok s' ∧ s'.af = s.af ∧ s'.bc = s.bc ∧ s'.de = s.de ∧ s'.hl = s.hl ∧
      s'.sp = s.sp ∧ s'.ime = s.ime) ∧
    (∃ s', jr_nz s = .ok s' ∧ s'.af = s.af ∧ s'.bc = s.bc ∧ s'.de = s.de ∧ s'.hl = s.hl ∧
      s'.sp = s.sp ∧ s'.ime = s.ime) ∧
    (∃ s', jr_z s = .ok s' ∧ s'.af = s.af ∧ s'.bc = s.bc ∧ s'.de = s.de ∧ s'.hl = s.hl ∧
      s'.sp = s.sp ∧ s'.ime = s.ime) := by
  refine ⟨?_, ?_, ?_⟩
  · unfold jr_e
    dsimp only
    split_ifs <;> exact ⟨_, rfl, by simp [pc_add, pc_sub]⟩
  · unfold jr_nz
    dsimp only
    split_ifs <;> exact ⟨_, rfl, by simp [pc_add, pc_sub]⟩
  · unfold jr_z
    dsimp only
    split_ifs <;> exact ⟨_, rfl, by simp [pc_add, pc_sub]⟩

/-- C6: `jr nz` (0x20) branches iff the zero flag is clear and `jr z` (0x28) iff
it is set; a taken branch leaves `pc = (pc + 2 + signed(e)) mod 2^16` and reports
cost 3, a branch not taken leaves `pc = (pc + 2) mod 2^16` and reports cost 2; no
register or flag other than `pc` changes; so on any state exactly one of the two
handlers takes the branch. -/
theorem jr_nz_jr_z_branch (s : State) (e : Nat) (he : read_byte s (s.pc + 1) = e) :
    (read_byte s s.pc = 0x20 → ∃ s', cpu_cycle s = .ok s' ∧
      (s'.af = s.af ∧ s'.bc = s.bc ∧ s'.de = s.de ∧ s'.hl = s.hl ∧ s'.sp = s.sp) ∧
      (flagSet s FLAG_ZF = false →
        (s'.pc : Int) = ((s.pc : Int) + 2 + signed8 e) % 65536 ∧
        s'.reported = s.reported ++ [3]) ∧
      (flagSet s FLAG_ZF = true →
        s'.pc = (s.pc + 2) % 65536 ∧ s'.reported = s.reported ++ [2])) ∧
    (read_byte s s.pc = 0x28 → ∃ s', cpu_cycle s = .ok s' ∧
      (s'.af = s.af ∧ s'.bc = s.bc ∧ s'.de = s.de ∧ s'.hl = s.hl ∧ s'.sp = s.sp) ∧
      (flagSet s FLAG_ZF = true →
        (s'.pc : Int) = ((s.pc : Int) + 2 + signed8 e) % 65536 ∧
        s'.reported = s.reported ++ [3]) ∧
      (flagSet s FLAG_ZF = false →
        s'.pc = (s.pc + 2) % 65536 ∧ s'.reported = s.reported ++ [2])) ∧
    (∃ s1 s2, jr_nz s = .ok s1 ∧ jr_z s = .ok s2 ∧
      ((s1.reported = s.reported ++ [3] ∧ s2.reported = s.reported ++ [2]) ∨
       (s1.reported = s.reported ++ [2] ∧ s2.reported = s.reported ++ [3]))) := by
  have helt : e < 256 := he ▸ read_byte_lt s _
  obtain ⟨-, ⟨a, ha, fa1, fa2, fa3, fa4, fa5, -⟩, ⟨b, hb, fb1, fb2, fb3, fb4, fb5, -⟩⟩ :=
    jr_frame s
  obtain ⟨a', ha', -, ra, -, -, pa⟩ := jr_nz_steps s
  obtain ⟨b', hb', -, rb, -, -, pb⟩ := jr_z_steps s
  have ea : a' = a := Except.ok.inj (ha'.symm.trans ha)
  have eb : b' = b := Except.ok.inj (hb'.symm.trans hb)
  subst ea eb
  rw [he] at pa pb
  refine ⟨?_, ?_, ?_⟩
  · intro hop
    refine ⟨a', ?_, ⟨fa1, fa2, fa3, fa4, fa5⟩, ?_, ?_⟩
    · rw [cpu_cycle_eq s .jr_nz (by rw [hop]; decide)]; exact ha
    · intro hz
      rw [hz] at pa ra
      exact ⟨by rw [pa]; exact jrTarget_signed s.pc e helt, by simpa using ra⟩
    · intro hz
      rw [hz] at pa ra
      exact ⟨by simpa using pa, by simpa using ra⟩
  · intro hop
    refine ⟨b', ?_, ⟨fb1, fb2, fb3, fb4, fb5⟩, ?_, ?_⟩
    · rw [cpu_cycle_eq s .jr_z (by rw [hop]; decide)]; exact hb
    · intro hz
      rw [hz] at pb rb
      exact ⟨by rw [pb]; exact jrTarget_signed s.pc e helt, by simpa using rb⟩
    · intro hz
      rw [hz] at pb rb
      exact ⟨by simpa using pb, by simpa using rb⟩
  · refine ⟨a', b', ha, hb, ?_⟩
    cases hz : flagSet s FLAG_ZF
    · rw [hz] at ra rb
      exact Or.inl ⟨by simpa using ra, by simpa using rb⟩
    · rw [hz] at ra rb
      exact Or.inr ⟨by simpa using ra, by simpa using rb⟩

/-- C6 at a concrete input: `jr nz, -2` at 0x0100 with the zero flag clear is
taken, lands on 0x0100 and reports cost 3. -/
theorem jr_nz_jr_z_branch_witness :
    ∃ s', cpu_cycle (exampleState 0x0100 0 [0x20, 0xFE]) = .ok s' ∧
      (s'.pc : Int) = (((exampleState 0x0100 0 [0x20, 0xFE]).pc : Int) + 2 + signed8 0xFE)
        % 65536 ∧
      s'.reported = (exampleState 0x0100 0 [0x20, 0xFE]).reported ++ [3] := by
  obtain ⟨s', h1, -, h2, -⟩ :=
    (jr_nz_jr_z_branch (exampleState 0x0100 0 [0x20, 0xFE]) 0xFE (by decide)).1 (by decide)
  exact ⟨s', h1, h2 (by decide)⟩

/-- C7: `jr e` (0x18) leaves `pc = (pc + 2 + s) mod 2^16` with `s` the displacement
byte read as a signed 8-bit integer in [-128, 127], for both branches of the
handler; `e = 0x05` gives `pc + 7` and `e = 0xFE` gives `pc` back. -/
theorem jr_e_target (s : State) (e : Nat) (hop : read_byte s s.pc = 0x18)
    (he : read_byte s (s.pc + 1) = e) :
    ∃ s', cpu_cycle s = .ok s' ∧
      (s'.pc : Int) = ((s.pc : Int) + 2 + signed8 e) % 65536 ∧
      (-128 ≤ signed8 e ∧ signed8 e ≤ 127) ∧
      (e < 0x80 → s'.pc = ((s.pc + 2) % 65536 + e) % 65536) ∧
      (0x80 ≤ e → s'.pc = ((s.pc + 2) % 65536 + 65536 - (256 - e)) % 65536) ∧
      (e = 0x05 → s'.pc = (s.pc + 7) % 65536) ∧
      (e = 0xFE → s'.pc = s.pc % 65536) := by
  have helt : e < 256 := he ▸ read_byte_lt s _
  obtain ⟨s', h1, -, -, -, -, hpc⟩ := jr_e_steps s
  rw [he] at hpc
  have hsig := jrTarget_signed s.pc e helt
  rw [← hpc] at hsig
  refine ⟨s', ?_, hsig, ?_, ?_, ?_, ?_, ?_⟩
  · rw [cpu_cycle_eq s .jr_e (by rw [hop]; decide)]; exact h1
  · unfold signed8; split_ifs <;> omega
  · intro h; unfold signed8 at hsig; rw [if_pos (by omega)] at hsig; omega
  · intro h; unfold signed8 at hsig; rw [if_neg (by omega)] at hsig; omega
  · intro h; subst h; unfold signed8 at hsig; rw [if_pos (by decide)] at hsig; omega
  · intro h; subst h; unfold signed8 at hsig; rw [if_neg (by decide)] at hsig; omega

/-- C7 at a concrete input: `jr -2` at 0x0100 lands on 0x0100. -/
theorem jr_e_target_witness :
    ∃ s', cpu_cycle (exampleState 0x01B0 0 [0x18, 0xFE]) = .ok s' ∧
      s'.pc = (exampleState 0x01B0 0 [0x18, 0xFE]).pc % 65536 := by
  obtain ⟨s', h1, -, -, -, -, -, h2⟩ :=
    jr_e_target (exampleState 0x01B0 0 [0x18, 0xFE]) 0xFE (by decide) (by decide)
  exact ⟨s', h1, h2 rfl⟩

/-! ## Cycle accounting (C8, C9) and instruction length (C10) -/

theorem cost_bounds (h : Handler) (s : State) : 1 ≤ h.cost s ∧ h.cost s ≤ 4 := by
  cases h <;> simp only [Handler.cost] <;> first | decide | (split_ifs <;> decide)

theorem cpu_cycle_ok_entry {s s' : State} (h : cpu_cycle s = .ok s') :
    ∃ hd, opcodeEntry (read_byte s s.pc) = some hd := by
  unfold cpu_cycle at h
  dsimp only at h
  cases hent : opcodeEntry (read_byte s s.pc) with
  | none => rw [hent] at h; cases h
  | some hd => exact ⟨hd, rfl⟩

theorem run_reported (n : Nat) : ∀ s s', run n s = .ok s' →
    ∃ costs : List Int, costs.length = n ∧ s'.reported = s.reported ++ costs ∧
      s'.total_cycles = s.total_cycles + (costs.map (· + 1)).sum := by
  induction n with
  | zero =>
    intro s s' h
    have : s = s' := Except.ok.inj h
    subst this
    exact ⟨[], rfl, by simp, by simp⟩
  | succ n ih =>
    intro s s' h
    unfold run at h
    cases hc : cpu_cycle s with
    | error e => rw [hc] at h; cases h
    | ok s1 =>
      rw [hc] at h
      obtain ⟨hd, hent⟩ := cpu_cycle_ok_entry hc
      obtain ⟨s1', h1, -, hr, ht, -, -⟩ := handler_steps s hd hent
      have e1 : s1' = s1 := Except.ok.inj (h1.symm.trans hc)
      subst e1
      obtain ⟨costs, hl, hrep, htot⟩ := ih s1' s' h
      refine ⟨hd.cost s :: costs, by simp [hl], ?_, ?_⟩
      · rw [hrep, hr]; simp
      · rw [htot, ht]; simp; ring

/-- C8: every `count_cycles c` adds exactly `c + 1` to `total_cycles` and to
`timing.current_cycles`, throttle or not; after `n` steps the costs reported are
`n` numbers `c_1..c_n` and `total_cycles` has grown by the sum of the `c_i + 1`
(so from 0 it is that sum); every step strictly increases `total_cycles`. -/
theorem cycle_accounting (s s' : State) (c : Int) (n : Nat) (hrun : run n s = .ok s') :
    ((count_cycles s c).total_cycles = s.total_cycles + (c + 1) ∧
      (count_cycles s c).current_cycles = s.current_cycles + (c + 1)) ∧
    (∃ costs : List Int, costs.length = n ∧ s'.reported = s.reported ++ costs ∧
      s'.total_cycles = s.total_cycles + (costs.map (· + 1)).sum ∧
      (s.total_cycles = 0 → s'.total_cycles = (costs.map (· + 1)).sum)) ∧
    (∀ t t', cpu_cycle t = .ok t' → t.total_cycles < t'.total_cycles) := by
  refine ⟨⟨count_cycles_total s c, count_cycles_current s c⟩, ?_, ?_⟩
  · obtain ⟨costs, h1, h2, h3⟩ := run_reported n s s' hrun
    exact ⟨costs, h1, h2, h3, fun h0 => by rw [h3, h0, zero_add]⟩
  · intro t t' ht
    obtain ⟨hd, hent⟩ := cpu_cycle_ok_entry ht
    obtain ⟨t1, h1, -, -, htot, -, -⟩ := handler_steps t hd hent
    have e1 : t1 = t' := Except.ok.inj (h1.symm.trans ht)
    subst e1
    have := (cost_bounds hd t).1
    omega

/-- C8 at a concrete input: one `nop` step from the post-boot registers. -/
theorem cycle_accounting_witness :
    ∃ costs : List Int, costs.length = 1 ∧
      (count_cycles (pc_add (exampleState 0x01B0 0x0013 [0x00]) 1) 1).reported =
        (exampleState 0x01B0 0x0013 [0x00]).reported ++ costs ∧
      (count_cycles (pc_add (exampleState 0x01B0 0x0013 [0x00]) 1) 1).total_cycles =
        (exampleState 0x01B0 0x0013 [0x00]).total_cycles + (costs.map (· + 1)).sum ∧
      ((exampleState 0x01B0 0x0013 [0x00]).total_cycles = 0 →
        (count_cycles (pc_add (exampleState 0x01B0 0x0013 [0x00]) 1) 1).total_cycles =
          (costs.map (· + 1)).sum) :=
  (cycle_accounting (exampleState 0x01B0 0x0013 [0x00])
    (count_cycles (pc_add (exampleState 0x01B0 0x0013 [0x00]) 1) 1) 1 1 rfl).2.1

/-! ## The `int` counters -/

/-- Wrapping at every `+=` and wrapping the exact sum once give the same value. -/
theorem asInt_add (a b : Int) : asInt (asInt a + b) = asInt (a + b) := by
  unfold asInt
  omega

theorem asInt_of_range {x : Int} (h1 : -2147483648 ≤ x) (h2 : x ≤ 2147483647) :
    asInt x = x := by
  unfold asInt
  omega

theorem asInt_range (x : Int) : -2147483648 ≤ asInt x ∧ asInt x ≤ 2147483647 := by
  unfold asInt
  omega

/-- C9 (as stated, at a failing input): `nop` from `total_cycles = 2147483646`
leaves the `int` counter at -2147483648, not 2 to 5 above its old value. -/
theorem nominal_cost_table_overflow :
    ∃ s', cpu_cycle nearOverflowState = .ok s' ∧
      s'.reported = nearOverflowState.reported ++ [1] ∧
      asInt nearOverflowState.total_cycles = 2147483646 ∧
      asInt s'.total_cycles = -2147483648 ∧
      ¬ (asInt nearOverflowState.total_cycles + 2 ≤ asInt s'.total_cycles) := by
  obtain ⟨s', h1, -, hr, ht, -, -⟩ := handler_steps nearOverflowState .nop (by decide)
  have ht' : s'.total_cycles = 2147483648 := by rw [ht]; rfl
  refine ⟨s', h1, hr, by decide, ?_, ?_⟩
  · rw [ht']; decide
  · rw [ht']; decide

/-- C9 (amended): a step on a populated opcode does not fault and calls
`count_cycles` exactly once, with the nominal cost of the instruction: 1 for nop,
ld r,r', sub r, sbc a,r, xor r, inc r, dec r, cpl, di; 2 for ld r,d8, ld r,(hl),
ld (bc),a, ldd (hl),a, inc rr, cp d8 and a jr nz / jr z not taken; 3 for
ld rr,d16, jr e, ldh (a8),a, ldh a,(a8) and a jr nz / jr z taken; 4 for jp nn
and ld (a16),a.  When `total_cycles` plus that cost plus one does not exceed
`INT_MAX`, the `int` counter grows by exactly the cost plus one, between 2 and 5. -/
theorem nominal_cost_table (s : State) (h : Handler)
    (hop : opcodeEntry (read_byte s s.pc) = some h) :
    ∃ s' c, cpu_cycle s = .ok s' ∧ s'.reported = s.reported ++ [c] ∧
      (asInt s.total_cycles + (c + 1) ≤ INT_MAX →
        asInt s'.total_cycles = asInt s.total_cycles + (c + 1) ∧
        asInt s.total_cycles + 2 ≤ asInt s'.total_cycles ∧
        asInt s'.total_cycles ≤ asInt s.total_cycles + 5) ∧
      (h ∈ [.nop, .ld_r_r, .sub_r, .sbc_a_r, .xor_r, .inc_r, .dec_r, .cpl, .di] → c = 1) ∧
      (h ∈ [.ld_r_xx, .ld_r_hl, .ld_bc_a, .ldd_hl_a, .inc_r16, .cp_xx] → c = 2) ∧
      (h ∈ [.ld_r_xxxx, .jr_e, .ldh_a8_a, .ldh_a_a8] → c = 3) ∧
      (h ∈ [.jp_nn, .ld_a16_a] → c = 4) ∧
      (h = .jr_nz → (flagSet s FLAG_ZF = true → c = 2) ∧ (flagSet s FLAG_ZF = false → c = 3)) ∧
      (h = .jr_z → (flagSet s FLAG_ZF = false → c = 2) ∧ (flagSet s FLAG_ZF = true → c = 3)) := by
  obtain ⟨s', h1, -, hr, ht, -, -⟩ := handler_steps s h hop
  have hb := cost_bounds h s
  refine ⟨s', h.cost s, h1, hr, ?_, ?_, ?_, ?_, ?_, ?_, ?_⟩
  · intro hno
    have hrange := asInt_range s.total_cycles
    have e : asInt s'.total_cycles = asInt s.total_cycles + (h.cost s + 1) := by
      rw [ht, ← asInt_add]
      exact asInt_of_range (by omega) hno
    exact ⟨e, by omega, by omega⟩
  · intro hm; revert hm; cases h <;> simp [Handler.cost]
  · intro hm; revert hm; cases h <;> simp [Handler.cost]
  · intro hm; revert hm; cases h <;> simp [Handler.cost]
  · intro hm; revert hm; cases h <;> simp [Handler.cost]
  · intro hm; subst hm
    exact ⟨fun hz => by simp [Handler.cost, hz], fun hz => by simp [Handler.cost, hz]⟩
  · intro hm; subst hm
    exact ⟨fun hz => by simp [Handler.cost, hz], fun hz => by simp [Handler.cost, hz]⟩

/-- C9 at a concrete input: `jp 0x0150` reports cost 4 and raises the `int`
counter from 0 by 5. -/
theorem nominal_cost_table_witness :
    ∃ s', cpu_cycle (exampleState 0x01B0 0x0013 [0xC3, 0x50, 0x01]) = .ok s' ∧
      s'.reported = (exampleState 0x01B0 0x0013 [0xC3, 0x50, 0x01]).reported ++ [4] ∧
      asInt s'.total_cycles =
        asInt (exampleState 0x01B0 0x0013 [0xC3, 0x50, 0x01]).total_cycles + (4 + 1) := by
  obtain ⟨s', c, h1, h2, h3, -, -, -, h4, -⟩ :=
    nominal_cost_table (exampleState 0x01B0 0x0013 [0xC3, 0x50, 0x01]) .jp_nn (by decide)
  have hc : c = 4 := h4 (by decide)
  subst hc
  exact ⟨s', h1, h2, (h3 (by decide)).1⟩

/-- C10: a step on a populated opcode that is not a jump leaves
`pc = (pc + L) mod 2^16` with `L` the instruction length: 1 for nop, ld r,r',
ld r,(hl), ld (bc),a, ldd (hl),a, inc rr, inc r, dec r, sub r, sbc a,r, xor r,
cpl, di; 2 for ld r,d8, cp d8, ldh (a8),a, ldh a,(a8); 3 for ld rr,d16 and
ld (a16),a.  `jp nn` leaves `pc` = the little-endian word at `pc + 1`. -/
theorem pc_advance_table (s : State) (h : Handler)
    (hop : opcodeEntry (read_byte s s.pc) = some h) :
    ∃ s', cpu_cycle s = .ok s' ∧
      (h ∈ [.nop, .ld_r_r, .ld_r_hl, .ld_bc_a, .ldd_hl_a, .inc_r16, .inc_r, .dec_r, .sub_r,
          .sbc_a_r, .xor_r, .cpl, .di] → s'.pc = (s.pc + 1) % 65536) ∧
      (h ∈ [.ld_r_xx, .cp_xx, .ldh_a8_a, .ldh_a_a8] → s'.pc = (s.pc + 2) % 65536) ∧
      (h ∈ [.ld_r_xxxx, .ld_a16_a] → s'.pc = (s.pc + 3) % 65536) ∧
      (h = .jp_nn → s'.pc = read_byte s (s.pc + 1) + 256 * read_byte s (s.pc + 2)) := by
  obtain ⟨s', h1, -, -, -, -, hpc⟩ := handler_steps s h hop
  refine ⟨s', h1, ?_, ?_, ?_, ?_⟩
  · intro hm; rw [hpc]; revert hm; cases h <;> simp [Handler.nextPc]
  · intro hm; rw [hpc]; revert hm; cases h <;> simp [Handler.nextPc]
  · intro hm; rw [hpc]; revert hm; cases h <;> simp [Handler.nextPc]
  · intro hm; subst hm
    rw [hpc]
    have h1 := read_byte_lt s (s.pc + 1)
    have h2 := read_byte_lt s (s.pc + 1 + 1)
    simp only [Handler.nextPc, read_word]
    rw [show s.pc + 2 = s.pc + 1 + 1 from rfl]
    omega

/-- C10 at a concrete input: `ld bc,0x1234` advances `pc` by 3. -/
theorem pc_advance_table_witness :
    ∃ s', cpu_cycle (exampleState 0x01B0 0x0013 [0x01, 0x34, 0x12]) = .ok s' ∧
      s'.pc = ((exampleState 0x01B0 0x0013 [0x01, 0x34, 0x12]).pc + 3) % 65536 := by
  obtain ⟨s', h1, -, -, h2, -⟩ :=
    pc_advance_table (exampleState 0x01B0 0x0013 [0x01, 0x34, 0x12]) .ld_r_xxxx (by decide)
  exact ⟨s', h1, h2 (by decide)⟩

/-! ## Flags and results of the other arithmetic handlers -/

theorem sbc_a_r_zero (s : State) (h : validReg8 (read_byte s s.pc &&& 7)) :
    ∃ s', sbc_a_r s = .ok s' ∧
      flagSet s' FLAG_ZF =
        decide ((if flagSet s FLAG_CY then
          ((getReg8 s REG_A + 256 - getReg8 s (read_byte s s.pc &&& 7)) % 256 + 255) % 256
         else (getReg8 s REG_A + 256 - getReg8 s (read_byte s s.pc &&& 7)) % 256) = 0) ∧
      flagSet s' FLAG_N = true := by
  unfold sbc_a_r
  dsimp only [bind]
  rw [read_reg8_ok s h]
  dsimp only [Except.bind, read_reg8_A, write_reg8_A, pure, Except.pure]
  refine ⟨_, rfl, ?_, ?_⟩
  all_goals
    simp [flagSet_pc_add, flagSet_ZF, flagSet_N, flagSet_H, flagSet_CY, setReg8_testBit,
      ite_testBit, af_or_testBit, af_andnot_testBit, FLAG_N, FLAG_ZF, FLAG_H, FLAG_CY,
      mask_literals, flag_bit_literals]

theorem cp_xx_flags (s : State) :
    ∃ s', cp_xx s = .ok s' ∧
      flagSet s' FLAG_ZF =
        decide ((getReg8 s REG_A + 256 - read_byte s (s.pc + 1)) % 256 = 0) ∧
      flagSet s' FLAG_N = true ∧
      s'.af &&& 15 = s.af &&& 15 ∧
      (s'.bc = s.bc ∧ s'.de = s.de ∧ s'.hl = s.hl ∧ s'.sp = s.sp ∧ s'.ime = s.ime) := by
  unfold cp_xx
  dsimp only [bind, Except.bind, read_reg8_A, pure, Except.pure]
  refine ⟨_, rfl, ?_, ?_, ?_, ?_⟩
  · simp [flagSet_pc_add, flagSet_ZF, flagSet_N, flagSet_H, flagSet_CY, setReg8_testBit,
      ite_testBit, af_or_testBit, af_andnot_testBit, FLAG_N, FLAG_ZF, FLAG_H, FLAG_CY,
      mask_literals, flag_bit_literals]
  · simp [flagSet_pc_add, flagSet_ZF, flagSet_N, flagSet_H, flagSet_CY, setReg8_testBit,
      ite_testBit, af_or_testBit, af_andnot_testBit, FLAG_N, FLAG_ZF, FLAG_H, FLAG_CY,
      mask_literals, flag_bit_literals]
  · simp [FLAG_N, FLAG_ZF, FLAG_H, FLAG_CY, mask_literals]
  · simp only [count_cycles_bc, count_cycles_de, count_cycles_hl, count_cycles_sp,
      count_cycles_ime]
    refine ⟨?_, ?_, ?_, ?_, ?_⟩ <;> (split_ifs <;> rfl)

theorem xor_r_effect (s : State) (h : validReg8 (read_byte s s.pc &&& 7)) :
    ∃ s', xor_r s = .ok s' ∧
      getReg8 s' REG_A = getReg8 s REG_A ^^^ getReg8 s (read_byte s s.pc &&& 7) ∧
      flagSet s' FLAG_ZF =
        decide (getReg8 s REG_A ^^^ getReg8 s (read_byte s s.pc &&& 7) = 0) ∧
      flagSet s' FLAG_N = false ∧ flagSet s' FLAG_H = false ∧ flagSet s' FLAG_CY = false ∧
      s'.af &&& 15 = s.af &&& 15 := by
  have hlt : getReg8 s REG_A ^^^ getReg8 s (read_byte s s.pc &&& 7) < 256 :=
    Nat.xor_lt_two_pow (n := 8) (getReg8_lt s _) (getReg8_lt s _)
  unfold xor_r
  dsimp only [bind]
  rw [read_reg8_ok s h]
  dsimp only [Except.bind, read_reg8_A, write_reg8_A, pure, Except.pure]
  refine ⟨_, rfl, ?_, ?_, ?_, ?_, ?_, ?_⟩
  · simp [getReg8_setReg8_same, show validReg8 REG_A from by decide, FLAG_N, FLAG_ZF, FLAG_H,
      FLAG_CY, Nat.mod_eq_of_lt hlt]
  · simp [flagSet_pc_add, flagSet_ZF, flagSet_N, flagSet_H, flagSet_CY, setReg8_testBit,
      ite_testBit, af_or_testBit, af_andnot_testBit, FLAG_N, FLAG_ZF, FLAG_H, FLAG_CY,
      mask_literals, flag_bit_literals]
  · simp [flagSet_pc_add, flagSet_ZF, flagSet_N, flagSet_H, flagSet_CY, setReg8_testBit,
      ite_testBit, af_or_testBit, af_andnot_testBit, FLAG_N, FLAG_ZF, FLAG_H, FLAG_CY,
      mask_literals, flag_bit_literals]
  · simp [flagSet_pc_add, flagSet_ZF, flagSet_N, flagSet_H, flagSet_CY, setReg8_testBit,
      ite_testBit, af_or_testBit, af_andnot_testBit, FLAG_N, FLAG_ZF, FLAG_H, FLAG_CY,
      mask_literals, flag_bit_literals]
  · simp [flagSet_pc_add, flagSet_ZF, flagSet_N, flagSet_H, flagSet_CY, setReg8_testBit,
      ite_testBit, af_or_testBit, af_andnot_testBit, FLAG_N, FLAG_ZF, FLAG_H, FLAG_CY,
      mask_literals, flag_bit_literals]
  · simp [FLAG_N, FLAG_ZF, FLAG_H, FLAG_CY, mask_literals]

theorem dec_r_effect (s : State) (h : validReg8 ((read_byte s s.pc >>> 3) &&& 7)) :
    ∃ s', dec_r s = .ok s' ∧
      getReg8 s' ((read_byte s s.pc >>> 3) &&& 7) =
        (getReg8 s ((read_byte s s.pc >>> 3) &&& 7) + 255) % 256 ∧
      flagSet s' FLAG_ZF =
        decide ((getReg8 s ((read_byte s s.pc >>> 3) &&& 7) + 255) % 256 = 0) ∧
      flagSet s' FLAG_N = true ∧
      flagSet s' FLAG_H =
        decide ((getReg8 s ((read_byte s s.pc >>> 3) &&& 7) + 255) % 256 &&& 0x0F
          > getReg8 s ((read_byte s s.pc >>> 3) &&& 7) &&& 0x0F) ∧
      flagSet s' FLAG_CY = flagSet s FLAG_CY := by
  unfold dec_r
  dsimp only [bind]
  rw [read_reg8_ok s h]
  dsimp only [Except.bind]
  rw [write_reg8_ok _ _ h]
  dsimp only [Except.bind, pure, Except.pure]
  refine ⟨_, rfl, ?_, ?_, ?_, ?_, ?_⟩
  · simp [getReg8_setReg8_same, h]
  all_goals
    simp [flagSet_pc_add, flagSet_ZF, flagSet_N, flagSet_H, flagSet_CY, setReg8_testBit,
      ite_testBit, af_or_testBit, af_andnot_testBit, FLAG_N, FLAG_ZF, FLAG_H, FLAG_CY,
      mask_literals, flag_bit_literals]

theorem inc_r_effect (s : State) (h : validReg8 ((read_byte s s.pc >>> 3) &&& 7)) :
    ∃ s', inc_r s = .ok s' ∧
      getReg8 s' ((read_byte s s.pc >>> 3) &&& 7) =
        (getReg8 s ((read_byte s s.pc >>> 3) &&& 7) + 1) % 256 ∧
      flagSet s' FLAG_ZF =
        decide ((getReg8 s ((read_byte s s.pc >>> 3) &&& 7) + 1) % 256 = 0) ∧
      flagSet s' FLAG_N = false ∧
      flagSet s' FLAG_H =
        decide ((getReg8 s ((read_byte s s.pc >>> 3) &&& 7) + 1) % 256 &&& 0x0F
          < getReg8 s ((read_byte s s.pc >>> 3) &&& 7) &&& 0x0F) ∧
      flagSet s' FLAG_CY = flagSet s FLAG_CY := by
  unfold inc_r
  dsimp only [bind]
  rw [read_reg8_ok s h]
  dsimp only [Except.bind]
  rw [write_reg8_ok _ _ h]
  dsimp only [Except.bind, pure, Except.pure]
  refine ⟨_, rfl, ?_, ?_, ?_, ?_, ?_⟩
  · simp [getReg8_setReg8_same, h]
  all_goals
    simp [flagSet_pc_add, flagSet_ZF, flagSet_N, flagSet_H, flagSet_CY, setReg8_testBit,
      ite_testBit, af_or_testBit, af_andnot_testBit, FLAG_N, FLAG_ZF, FLAG_H, FLAG_CY,
      mask_literals, flag_bit_literals]

/-! ## Result and zero flag (C12), inc / dec flags (C13), xor flags (C16) -/

set_option maxRecDepth 1000000 in
/-- A byte is its low nibble plus its bits 4-7. -/
theorem byte_of_bits : ∀ b < 256,
    b = (b &&& 15) + 16 * (b.testBit 4).toNat + 32 * (b.testBit 5).toNat +
      64 * (b.testBit 6).toNat + 128 * (b.testBit 7).toNat := by
  decide

/-- The flags byte is its low nibble plus the four flags. -/
theorem flags_byte (s : State) :
    s.af % 256 = (s.af &&& 15) + 16 * (flagSet s FLAG_CY).toNat +
      32 * (flagSet s FLAG_H).toNat + 64 * (flagSet s FLAG_N).toNat +
      128 * (flagSet s FLAG_ZF).toNat := by
  have h := byte_of_bits (s.af % 256) (Nat.mod_lt _ (by norm_num))
  have e : ∀ k, k < 8 → (s.af % 256).testBit k = s.af.testBit k := by
    intro k hk
    rw [mod_256_testBit]
    simp [hk]
  rw [e 4 (by norm_num), e 5 (by norm_num), e 6 (by norm_num), e 7 (by norm_num),
    nib_of_mod (Nat.mod_mod s.af 256)] at h
  have h4 : flagSet s FLAG_CY = s.af.testBit 4 := flagSet_CY s
  have h5 : flagSet s FLAG_H = s.af.testBit 5 := flagSet_H s
  have h6 : flagSet s FLAG_N = s.af.testBit 6 := flagSet_N s
  have h7 : flagSet s FLAG_ZF = s.af.testBit 7 := flagSet_ZF s
  rw [h4, h5, h6, h7]
  exact h

set_option maxRecDepth 1000000 in
theorem nibble_step : ∀ old < 256,
    (((old + 255) % 256 &&& 0x0F > old &&& 0x0F) ↔ old &&& 0x0F = 0) ∧
    (((old + 1) % 256 &&& 0x0F < old &&& 0x0F) ↔ old &&& 0x0F = 0x0F) := by
  decide

set_option maxRecDepth 1000000 in
/-- The opcodes behind the arithmetic handlers. -/
theorem arith_opcodes : ∀ op < 256,
    (opcodeEntry op = some .sub_r ↔ op ∈ [0x90, 0x91, 0x92, 0x93, 0x94, 0x95, 0x97]) ∧
    (opcodeEntry op = some .sbc_a_r ↔ op ∈ [0x98, 0x99, 0x9A, 0x9B, 0x9C, 0x9D, 0x9F]) ∧
    (opcodeEntry op = some .xor_r ↔ op ∈ [0xA8, 0xA9, 0xAA, 0xAB, 0xAC, 0xAD, 0xAF]) ∧
    (opcodeEntry op = some .dec_r ↔ op ∈ [0x05, 0x0D, 0x15, 0x1D, 0x25, 0x2D, 0x3D]) ∧
    (opcodeEntry op = some .inc_r ↔ op = 0x2C) ∧
    (opcodeEntry op = some .cp_xx ↔ op = 0xFE) := by
  decide

/-- C12: the arithmetic and logical handlers write back the wrapped 8-bit
result and set the zero flag iff that result is zero: `sub r` gives
`(A - r) mod 256`, `sbc a,r` gives `(A - r - c) mod 256`, `xor r` gives
`A xor r`, `inc r` gives `(r + 1) mod 256`, `dec r` gives `(r - 1) mod 256`; for
`cp n` the zero flag is set iff `A = n`. -/
theorem result_and_zero_flag (s : State) (A : Nat) (hA : read_reg8 s REG_A = .ok A) :
    (∀ r, read_byte s s.pc ∈ [0x90, 0x91, 0x92, 0x93, 0x94, 0x95, 0x97] →
      read_reg8 s (read_byte s s.pc &&& 7) = .ok r →
      ∃ s' a, cpu_cycle s = .ok s' ∧ read_reg8 s' REG_A = .ok a ∧
        (a : Int) = ((A : Int) - r) % 256 ∧ (flagSet s' FLAG_ZF = true ↔ a = 0)) ∧
    (∀ r c, read_byte s s.pc ∈ [0x98, 0x99, 0x9A, 0x9B, 0x9C, 0x9D, 0x9F] →
      read_reg8 s (read_byte s s.pc &&& 7) = .ok r →
      c = (if flagSet s FLAG_CY then 1 else 0) →
      ∃ s' a, cpu_cycle s = .ok s' ∧ read_reg8 s' REG_A = .ok a ∧
        (a : Int) = ((A : Int) - r - c) % 256 ∧ (flagSet s' FLAG_ZF = true ↔ a = 0)) ∧
    (∀ r, read_byte s s.pc ∈ [0xA8, 0xA9, 0xAA, 0xAB, 0xAC, 0xAD, 0xAF] →
      read_reg8 s (read_byte s s.pc &&& 7) = .ok r →
      ∃ s' a, cpu_cycle s = .ok s' ∧ read_reg8 s' REG_A = .ok a ∧
        a = A ^^^ r ∧ (flagSet s' FLAG_ZF = true ↔ a = 0)) ∧
    (∀ r, read_byte s s.pc = 0x2C →
      read_reg8 s ((read_byte s s.pc >>> 3) &&& 7) = .ok r →
      ∃ s' a, cpu_cycle s = .ok s' ∧ read_reg8 s' ((read_byte s s.pc >>> 3) &&& 7) = .ok a ∧
        a = (r + 1) % 256 ∧ (flagSet s' FLAG_ZF = true ↔ a = 0)) ∧
    (∀ r, read_byte s s.pc ∈ [0x05, 0x0D, 0x15, 0x1D, 0x25, 0x2D, 0x3D] →
      read_reg8 s ((read_byte s s.pc >>> 3) &&& 7) = .ok r →
      ∃ s' a, cpu_cycle s = .ok s' ∧ read_reg8 s' ((read_byte s s.pc >>> 3) &&& 7) = .ok a ∧
        (a : Int) = ((r : Int) - 1) % 256 ∧ (flagSet s' FLAG_ZF = true ↔ a = 0)) ∧
    (∀ n, read_byte s s.pc = 0xFE → read_byte s (s.pc + 1) = n →
      ∃ s', cpu_cycle s = .ok s' ∧ (flagSet s' FLAG_ZF = true ↔ A = n)) := by
  have hA' : getReg8 s REG_A = A := by
    have := read_reg8_A s
    rw [hA] at this
    exact (Except.ok.inj this).symm
  have hAlt : A < 256 := hA' ▸ getReg8_lt s REG_A
  have hop := arith_opcodes (read_byte s s.pc) (read_byte_lt s s.pc)
  obtain ⟨o1, o2, o3, o4, o5, o6⟩ := hop
  have hd := decode_valid (read_byte s s.pc) (read_byte_lt s s.pc)
  obtain ⟨-, d2, d3, d4, d5, -, d7, -⟩ := hd
  have hreg : ∀ {k r : Nat}, validReg8 k → read_reg8 s k = .ok r →
      getReg8 s k = r ∧ r < 256 := by
    intro k r hk hr
    have := read_reg8_ok s hk
    rw [hr] at this
    have e := (Except.ok.inj this).symm
    exact ⟨e, e ▸ getReg8_lt s k⟩
  refine ⟨?_, ?_, ?_, ?_, ?_, ?_⟩
  · intro r hmem hr
    have hent := o1.mpr hmem
    obtain ⟨er, hrlt⟩ := hreg (d3 hent) hr
    obtain ⟨s', h1, hres, hz, -, -, -⟩ := sub_r_effect s (d3 hent)
    refine ⟨s', _, ?_, read_reg8_A s', ?_, ?_⟩
    · rw [cpu_cycle_eq s .sub_r hent]; exact h1
    · rw [hres, hA', er]; omega
    · rw [hz, hres, decide_eq_true_iff]
  · intro r c hmem hr hc
    have hent := o2.mpr hmem
    obtain ⟨er, hrlt⟩ := hreg (d2 hent) hr
    obtain ⟨s', h1, hres, -, -⟩ := sbc_a_r_effect s (d2 hent)
    obtain ⟨s2, h2, hz, -⟩ := sbc_a_r_zero s (d2 hent)
    have e2 : s2 = s' := Except.ok.inj (h2.symm.trans h1)
    subst e2
    refine ⟨s2, _, ?_, read_reg8_A s2, ?_, ?_⟩
    · rw [cpu_cycle_eq s .sbc_a_r hent]; exact h1
    · rw [hres, hA', er, hc]
      split_ifs <;> omega
    · rw [hz, hres, decide_eq_true_iff]
  · intro r hmem hr
    have hent := o3.mpr hmem
    obtain ⟨er, hrlt⟩ := hreg (d4 hent) hr
    obtain ⟨s', h1, hres, hz, -, -, -, -⟩ := xor_r_effect s (d4 hent)
    refine ⟨s', _, ?_, read_reg8_A s', ?_, ?_⟩
    · rw [cpu_cycle_eq s .xor_r hent]; exact h1
    · rw [hres, hA', er]
    · rw [hz, hres, decide_eq_true_iff]
  · intro r hmem hr
    have hent := o5.mpr hmem
    obtain ⟨er, hrlt⟩ := hreg (d7 hent) hr
    obtain ⟨s', h1, hres, hz, -, -, -⟩ := inc_r_effect s (d7 hent)
    refine ⟨s', _, ?_, read_reg8_ok s' (d7 hent), ?_, ?_⟩
    · rw [cpu_cycle_eq s .inc_r hent]; exact h1
    · rw [hres, er]
    · rw [hz, hres, decide_eq_true_iff]
  · intro r hmem hr
    have hent := o4.mpr hmem
    obtain ⟨er, hrlt⟩ := hreg (d5 hent) hr
    obtain ⟨s', h1, hres, hz, -, -, -⟩ := dec_r_effect s (d5 hent)
    refine ⟨s', _, ?_, read_reg8_ok s' (d5 hent), ?_, ?_⟩
    · rw [cpu_cycle_eq s .dec_r hent]; exact h1
    · rw [hres, er]; omega
    · rw [hz, hres, decide_eq_true_iff]
  · intro n hmem hn
    have hent := o6.mpr hmem
    have hnlt : n < 256 := hn ▸ read_byte_lt s _
    obtain ⟨s', h1, hz, -⟩ := cp_xx_flags s
    refine ⟨s', ?_, ?_⟩
    · rw [cpu_cycle_eq s .cp_xx hent]; exact h1
    · rw [hz, hA', hn, decide_eq_true_iff]; omega

/-- C12 at a concrete input: `sub b` from A = 0x10, B = 0x20. -/
theorem result_and_zero_flag_witness :
    ∃ s' a, cpu_cycle (exampleState 0x1000 0x2000 [0x90]) = .ok s' ∧
      read_reg8 s' REG_A = .ok a ∧
      (a : Int) = ((0x10 : Int) - (0x20 : Nat)) % 256 ∧ (flagSet s' FLAG_ZF = true ↔ a = 0) :=
  (result_and_zero_flag (exampleState 0x1000 0x2000 [0x90]) 0x10 rfl).1 0x20 (by decide) rfl

/-- C13: `dec r` (0x05, 0x0D, 0x15, 0x1D, 0x25, 0x2D, 0x3D) sets the subtract
flag, sets half-carry iff the low nibble of the old value is 0 and keeps the
carry flag; `inc r` (0x2C) clears the subtract flag, sets half-carry iff the low
nibble of the old value is 0x0F and keeps the carry flag. -/
theorem inc_dec_flags (s : State) (old : Nat)
    (hold : read_reg8 s ((read_byte s s.pc >>> 3) &&& 7) = .ok old) :
    (read_byte s s.pc ∈ [0x05, 0x0D, 0x15, 0x1D, 0x25, 0x2D, 0x3D] →
      ∃ s', cpu_cycle s = .ok s' ∧ flagSet s' FLAG_N = true ∧
        (flagSet s' FLAG_H = true ↔ old &&& 0x0F = 0) ∧
        flagSet s' FLAG_CY = flagSet s FLAG_CY) ∧
    (read_byte s s.pc = 0x2C →
      ∃ s', cpu_cycle s = .ok s' ∧ flagSet s' FLAG_N = false ∧
        (flagSet s' FLAG_H = true ↔ old &&& 0x0F = 0x0F) ∧
        flagSet s' FLAG_CY = flagSet s FLAG_CY) := by
  have hop := arith_opcodes (read_byte s s.pc) (read_byte_lt s s.pc)
  obtain ⟨-, -, -, o4, o5, -⟩ := hop
  have hd := decode_valid (read_byte s s.pc) (read_byte_lt s s.pc)
  obtain ⟨-, -, -, -, d5, -, d7, -⟩ := hd
  have hreg : validReg8 ((read_byte s s.pc >>> 3) &&& 7) →
      getReg8 s ((read_byte s s.pc >>> 3) &&& 7) = old ∧ old < 256 := by
    intro hk
    have := read_reg8_ok s hk
    rw [hold] at this
    have e := (Except.ok.inj this).symm
    exact ⟨e, e ▸ getReg8_lt s _⟩
  constructor
  · intro hmem
    have hent := o4.mpr hmem
    obtain ⟨er, hlt⟩ := hreg (d5 hent)
    obtain ⟨s', h1, -, -, hn, hh, hc⟩ := dec_r_effect s (d5 hent)
    refine ⟨s', ?_, hn, ?_, hc⟩
    · rw [cpu_cycle_eq s .dec_r hent]; exact h1
    · rw [hh, er, decide_eq_true_iff]
      exact (nibble_step old hlt).1
  · intro hmem
    have hent := o5.mpr hmem
    obtain ⟨er, hlt⟩ := hreg (d7 hent)
    obtain ⟨s', h1, -, -, hn, hh, hc⟩ := inc_r_effect s (d7 hent)
    refine ⟨s', ?_, hn, ?_, hc⟩
    · rw [cpu_cycle_eq s .inc_r hent]; exact h1
    · rw [hh, er, decide_eq_true_iff]
      exact (nibble_step old hlt).2

/-- C13 at a concrete input: `dec b` from B = 0x10 with the carry flag set. -/
theorem inc_dec_flags_witness :
    ∃ s', cpu_cycle (exampleState 0x0010 0x1000 [0x05]) = .ok s' ∧
      flagSet s' FLAG_N = true ∧
      (flagSet s' FLAG_H = true ↔ 0x10 &&& 0x0F = 0) ∧
      flagSet s' FLAG_CY = flagSet (exampleState 0x0010 0x1000 [0x05]) FLAG_CY :=
  (inc_dec_flags (exampleState 0x0010 0x1000 [0x05]) 0x10 rfl).1 (by decide)

/-- C16: `xor r` (0xA8-0xAD, 0xAF) leaves the subtract, half-carry and carry
flags clear whatever the flags were, so the flags byte is 0x80 when
`A xor r = 0` and 0x00 otherwise (on a state whose flags byte has its low nibble
zero); `xor a` (0xAF) leaves A = 0 and the flags byte 0x80. -/
theorem xor_flags (s : State) (A r : Nat) (hA : read_reg8 s REG_A = .ok A)
    (hop : read_byte s s.pc ∈ [0xA8, 0xA9, 0xAA, 0xAB, 0xAC, 0xAD, 0xAF])
    (hr : read_reg8 s (read_byte s s.pc &&& 7) = .ok r) :
    ∃ s', cpu_cycle s = .ok s' ∧
      (flagSet s' FLAG_N = false ∧ flagSet s' FLAG_H = false ∧ flagSet s' FLAG_CY = false) ∧
      (flagSet s' FLAG_ZF = true ↔ A ^^^ r = 0) ∧
      (s.af &&& 0x0F = 0 → s'.af &&& 0xFF = if A ^^^ r = 0 then 0x80 else 0x00) ∧
      (read_byte s s.pc = 0xAF → read_reg8 s' REG_A = .ok 0 ∧
        (s.af &&& 0x0F = 0 → s'.af &&& 0xFF = 0x80)) := by
  have hA' : getReg8 s REG_A = A := by
    have := read_reg8_A s
    rw [hA] at this
    exact (Except.ok.inj this).symm
  obtain ⟨-, -, o3, -, -, -⟩ := arith_opcodes (read_byte s s.pc) (read_byte_lt s s.pc)
  obtain ⟨-, -, -, d4, -, -, -, -⟩ := decode_valid (read_byte s s.pc) (read_byte_lt s s.pc)
  have hent := o3.mpr hop
  have er : getReg8 s (read_byte s s.pc &&& 7) = r := by
    have := read_reg8_ok s (d4 hent)
    rw [hr] at this
    exact (Except.ok.inj this).symm
  obtain ⟨s', h1, hres, hz, hn, hh, hc, hnib⟩ := xor_r_effect s (d4 hent)
  rw [hA', er] at hres hz
  have hbyte : s.af &&& 0x0F = 0 → s'.af &&& 0xFF = if A ^^^ r = 0 then 0x80 else 0x00 := by
    intro hinv
    have hb := flags_byte s'
    rw [hnib, hinv, hn, hh, hc, hz] at hb
    rw [and_255, hb]
    split_ifs with hx <;> simp [hx]
  refine ⟨s', ?_, ⟨hn, hh, hc⟩, ?_, hbyte, ?_⟩
  · rw [cpu_cycle_eq s .xor_r hent]; exact h1
  · rw [hz, decide_eq_true_iff]
  · intro hAF
    have hreg : getReg8 s (read_byte s s.pc &&& 7) = getReg8 s REG_A := by
      rw [hAF]; rfl
    have hrA : r = A := by rw [← er, hreg, hA']
    have hx : A ^^^ r = 0 := by rw [hrA]; exact Nat.xor_self A
    refine ⟨?_, ?_⟩
    · rw [read_reg8_A s', hres, hx]
    · intro hinv
      have := hbyte hinv
      rwa [if_pos hx] at this

/-- C16 at a concrete input: `xor a` from AF = 0x5A70. -/
theorem xor_flags_witness :
    ∃ s', cpu_cycle (exampleState 0x5A70 0 [0xAF]) = .ok s' ∧
      read_reg8 s' REG_A = .ok 0 ∧ s'.af &&& 0xFF = 0x80 := by
  obtain ⟨s', h1, -, -, -, h2⟩ :=
    xor_flags (exampleState 0x5A70 0 [0xAF]) 0x5A 0x5A rfl (by decide) rfl
  exact ⟨s', h1, (h2 (by decide)).1, (h2 (by decide)).2 (by decide)⟩

/-! ## Undefined opcodes (C11) -/

/-- C11: `cpu_cycle` faults iff the table entry for the byte at `pc` is `NULL`
(as for 0x76, 0x36, 0x96, 0xCB, 0xFF); the fault comes before any handler, with
the machine state (registers, flags, `sp`, `pc`, `ime`, all counters, memory and
the write trace) exactly as it was; a populated entry runs its handler to
completion; so fault or not depends on the byte at `pc` alone. -/
theorem undefined_opcode_fault (s t : State) :
    (opcodeEntry (read_byte s s.pc) = none → cpu_cycle s = .error s) ∧
    (opcodeEntry (read_byte s s.pc) ≠ none → ∃ s', cpu_cycle s = .ok s') ∧
    ((∃ e, cpu_cycle s = .error e) ↔ opcodeEntry (read_byte s s.pc) = none) ∧
    (opcodeEntry 0x76 = none ∧ opcodeEntry 0x36 = none ∧ opcodeEntry 0x96 = none ∧
      opcodeEntry 0xCB = none ∧ opcodeEntry 0xFF = none) ∧
    (read_byte s s.pc = read_byte t t.pc →
      ((∃ e, cpu_cycle s = .error e) ↔ (∃ e, cpu_cycle t = .error e))) := by
  have hnone : ∀ u : State, opcodeEntry (read_byte u u.pc) = none → cpu_cycle u = .error u := by
    intro u h
    unfold cpu_cycle
    simp only [h]
  have hsome : ∀ u : State, opcodeEntry (read_byte u u.pc) ≠ none →
      ∃ u', cpu_cycle u = .ok u' := by
    intro u h
    obtain ⟨hd, hhd⟩ := Option.ne_none_iff_exists'.mp h
    obtain ⟨u', h1, -⟩ := handler_steps u hd hhd
    exact ⟨u', h1⟩
  have hiff : ∀ u : State, (∃ e, cpu_cycle u = .error e) ↔
      opcodeEntry (read_byte u u.pc) = none := by
    intro u
    constructor
    · rintro ⟨e, he⟩
      by_contra hne
      obtain ⟨u', h1⟩ := hsome u hne
      rw [h1] at he
      cases he
    · intro h
      exact ⟨u, hnone u h⟩
  refine ⟨hnone s, hsome s, hiff s, by decide, ?_⟩
  intro hb
  rw [hiff s, hiff t, hb]

/-- C11 at a concrete input: 0x76 at `pc` faults with the state untouched. -/
theorem undefined_opcode_fault_witness :
    cpu_cycle (exampleState 0x01B0 0x0013 [0x76]) = .error (exampleState 0x01B0 0x0013 [0x76]) :=
  (undefined_opcode_fault (exampleState 0x01B0 0x0013 [0x76]) zeroState).1 (by decide)

/-! ## The throttle (C18) -/

/-- C18: with `t = cycles_time + (n + 1) * 1000 / cpu_speed` computed exactly,
`count_cycles n` calls the pacing pause once with `floor t` and resets
`cycles_time` and `cycles` to zero when `t >= 2`, and otherwise calls no pause,
stores `t` and adds `n + 1` to `cycles`; afterwards `cycles_time < 2`, and
`total_cycles` has grown by `n + 1` in both cases. -/
theorem throttle_firing (s : State) (n : Int) (_hspeed : s.cpu_speed ≠ 0) :
    (2 ≤ s.cycles_time + ((n : ℚ) + 1) * 1000 / (s.cpu_speed : ℚ) →
      (count_cycles s n).delays =
        s.delays ++ [⌊s.cycles_time + ((n : ℚ) + 1) * 1000 / (s.cpu_speed : ℚ)⌋] ∧
      (count_cycles s n).cycles_time = 0 ∧ (count_cycles s n).cycles = 0) ∧
    (s.cycles_time + ((n : ℚ) + 1) * 1000 / (s.cpu_speed : ℚ) < 2 →
      (count_cycles s n).delays = s.delays ∧
      (count_cycles s n).cycles_time =
        s.cycles_time + ((n : ℚ) + 1) * 1000 / (s.cpu_speed : ℚ) ∧
      (count_cycles s n).cycles = s.cycles + (n + 1)) ∧
    (count_cycles s n).cycles_time < 2 ∧
    (count_cycles s n).total_cycles = s.total_cycles + (n + 1) := by
  have hcast : (((n + 1 : Int)) : ℚ) = (n : ℚ) + 1 := by push_cast; ring
  refine ⟨?_, ?_, ?_, count_cycles_total s n⟩
  · intro ht
    have ht' : THROTTLE_THRESHOLD ≤
        s.cycles_time + (((n + 1 : Int)) : ℚ) * 1000 / (s.cpu_speed : ℚ) := by
      rw [hcast]; exact ht
    have h0 : (0 : ℚ) ≤ s.cycles_time + ((n : ℚ) + 1) * 1000 / (s.cpu_speed : ℚ) :=
      le_trans (by norm_num) ht
    unfold count_cycles
    dsimp only
    rw [if_pos ht']
    refine ⟨?_, rfl, rfl⟩
    dsimp only
    rw [truncToInt, hcast, if_pos h0]
  · intro ht
    have ht' : ¬ THROTTLE_THRESHOLD ≤
        s.cycles_time + (((n + 1 : Int)) : ℚ) * 1000 / (s.cpu_speed : ℚ) := by
      rw [hcast]; exact not_le.mpr ht
    unfold count_cycles
    dsimp only
    rw [if_neg ht']
    exact ⟨rfl, by dsimp only; rw [hcast], rfl⟩
  · unfold count_cycles
    simp only
    split_ifs with ht
    · show (0 : ℚ) < 2
      norm_num
    · exact not_le.mp ht

/-- C18 at concrete inputs, at 4194304 Hz: with 1048375/524288 ms in the window
a call with cost 1 reaches 1048625/524288 >= 2, so the pause is called once with
2 and the window is reset; from an empty window the same call does not fire and
leaves 125/262144 ms and 2 cycles in the window. -/
theorem throttle_firing_witness :
    ((2 : ℚ) ≤ nearThrottleState.cycles_time +
        (((1 : Int) : ℚ) + 1) * 1000 / (nearThrottleState.cpu_speed : ℚ) ∧
      (count_cycles nearThrottleState 1).delays = nearThrottleState.delays ++ [2] ∧
      (count_cycles nearThrottleState 1).cycles_time = 0 ∧
      (count_cycles nearThrottleState 1).cycles = 0 ∧
      (count_cycles nearThrottleState 1).total_cycles =
        nearThrottleState.total_cycles + (1 + 1)) ∧
    ((count_cycles { zeroState with cpu_speed := 4194304 } 1).delays = [] ∧
      (count_cycles { zeroState with cpu_speed := 4194304 } 1).cycles_time = 125 / 262144 ∧
      (count_cycles { zeroState with cpu_speed := 4194304 } 1).cycles = 2 ∧
      (count_cycles { zeroState with cpu_speed := 4194304 } 1).cycles_time < 2) := by
  have hfire : (2 : ℚ) ≤ nearThrottleState.cycles_time +
      (((1 : Int) : ℚ) + 1) * 1000 / (nearThrottleState.cpu_speed : ℚ) := by
    norm_num [nearThrottleState, zeroState]
  have hfloor : ⌊nearThrottleState.cycles_time +
      (((1 : Int) : ℚ) + 1) * 1000 / (nearThrottleState.cpu_speed : ℚ)⌋ = 2 := by
    rw [Int.floor_eq_iff]
    norm_num [nearThrottleState, zeroState]
  obtain ⟨f1, -, -, f4⟩ := throttle_firing nearThrottleState 1 (by decide)
  obtain ⟨-, g1, g4, -⟩ :=
    throttle_firing { zeroState with cpu_speed := 4194304 } 1 (by decide)
  have hquiet : ({ zeroState with cpu_speed := 4194304 } : State).cycles_time +
      (((1 : Int) : ℚ) + 1) * 1000 /
        (({ zeroState with cpu_speed := 4194304 } : State).cpu_speed : ℚ) < 2 := by
    norm_num [zeroState]
  refine ⟨⟨hfire, ?_, (f1 hfire).2.1, (f1 hfire).2.2, f4⟩, ?_, ?_, ?_, g4⟩
  · rw [(f1 hfire).1, hfloor]
  · rw [(g1 hquiet).1]; rfl
  · rw [(g1 hquiet).2.1]; norm_num [zeroState]
  · rw [(g1 hquiet).2.2]; rfl

/-! ## The register-index fault (C19) -/

/-- C19: on a populated opcode every register selector the handler decodes is
one the register file accepts (8-bit selectors in {0,1,2,3,4,5,7}, never 6;
16-bit selectors in {0,1,2,3}) and the step does not fault; `read_reg8` and
`write_reg8` fault exactly for an index outside {0,1,2,3,4,5,7}. -/
theorem register_fault_unreachable (s : State) (h : Handler) (r v : Nat)
    (hop : opcodeEntry (read_byte s s.pc) = some h) :
    (∃ s', cpu_cycle s = .ok s') ∧
    (h = .ld_r_r → (read_byte s s.pc >>> 3) &&& 7 ∈ [0, 1, 2, 3, 4, 5, 7] ∧
      read_byte s s.pc &&& 7 ∈ [0, 1, 2, 3, 4, 5, 7]) ∧
    (h ∈ [.sbc_a_r, .sub_r, .xor_r] → read_byte s s.pc &&& 7 ∈ [0, 1, 2, 3, 4, 5, 7]) ∧
    (h ∈ [.dec_r, .ld_r_xx, .inc_r, .ld_r_hl] →
      (read_byte s s.pc >>> 3) &&& 7 ∈ [0, 1, 2, 3, 4, 5, 7]) ∧
    (h ∈ [.ld_r_xxxx, .inc_r16] → (read_byte s s.pc >>> 4) &&& 3 ∈ [0, 1, 2, 3]) ∧
    REG_A ∈ [0, 1, 2, 3, 4, 5, 7] ∧
    ((∃ e, read_reg8 s r = .error e) ↔ r ∉ [0, 1, 2, 3, 4, 5, 7]) ∧
    ((∃ e, write_reg8 s r v = .error e) ↔ r ∉ [0, 1, 2, 3, 4, 5, 7]) := by
  obtain ⟨d1, d2, d3, d4, d5, d6, d7, d8⟩ :=
    decode_valid (read_byte s s.pc) (read_byte_lt s s.pc)
  refine ⟨?_, ?_, ?_, ?_, ?_, by decide, ?_, ?_⟩
  · obtain ⟨s', h1, -⟩ := handler_steps s h hop
    exact ⟨s', h1⟩
  · intro e; subst e; exact d1 hop
  · intro hm
    simp only [List.mem_cons, List.mem_singleton, List.not_mem_nil, or_false] at hm
    rcases hm with e | e | e <;> subst e
    · exact d2 hop
    · exact d3 hop
    · exact d4 hop
  · intro hm
    simp only [List.mem_cons, List.mem_singleton, List.not_mem_nil, or_false] at hm
    rcases hm with e | e | e | e <;> subst e
    · exact d5 hop
    · exact d6 hop
    · exact d7 hop
    · exact d8 hop
  · intro _
    rcases reg16_cases (read_byte s s.pc) with e | e | e | e <;> rw [e] <;> decide
  · constructor
    · rintro ⟨e, he⟩ hv
      have : validReg8 r := hv
      rw [read_reg8_ok s this] at he
      cases he
    · intro hv
      exact ⟨s, read_reg8_fault s hv⟩
  · constructor
    · rintro ⟨e, he⟩ hv
      have : validReg8 r := hv
      rw [write_reg8_ok s v this] at he
      cases he
    · intro hv
      exact ⟨s, write_reg8_fault s v hv⟩

/-- C19 at a concrete input: `ld a,l` (0x7D) decodes the selectors 7 and 5. -/
theorem register_fault_unreachable_witness :
    (∃ s', cpu_cycle (exampleState 0x01B0 0x0013 [0x7D]) = .ok s') ∧
    ((read_byte (exampleState 0x01B0 0x0013 [0x7D]) (exampleState 0x01B0 0x0013 [0x7D]).pc
        >>> 3) &&& 7 ∈ [0, 1, 2, 3, 4, 5, 7] ∧
      read_byte (exampleState 0x01B0 0x0013 [0x7D]) (exampleState 0x01B0 0x0013 [0x7D]).pc
        &&& 7 ∈ [0, 1, 2, 3, 4, 5, 7]) :=
  ⟨(register_fault_unreachable (exampleState 0x01B0 0x0013 [0x7D]) .ld_r_r 6 0
      (by decide)).1,
   (register_fault_unreachable (exampleState 0x01B0 0x0013 [0x7D]) .ld_r_r 6 0
      (by decide)).2.1 rfl⟩

/-! ## Memory writes of every handler -/

section stores

variable (c : Prop) [Decidable c] (a b s : State) (m v : Nat)

@[simp] theorem ite_writes :
    (if c then a else b).writes = if c then a.writes else b.writes := by split <;> rfl
@[simp] theorem ite_mem : (if c then a else b).mem = if c then a.mem else b.mem := by
  split <;> rfl
@[simp] theorem af_or_writes : (af_or s m).writes = s.writes := rfl
@[simp] theorem af_or_mem : (af_or s m).mem = s.mem := rfl
@[simp] theorem af_andnot_writes : (af_andnot s m).writes = s.writes := rfl
@[simp] theorem af_andnot_mem : (af_andnot s m).mem = s.mem := rfl
@[simp] theorem pc_add_writes : (pc_add s m).writes = s.writes := rfl
@[simp] theorem pc_add_mem : (pc_add s m).mem = s.mem := rfl
@[simp] theorem pc_sub_writes : (pc_sub s m).writes = s.writes := rfl
@[simp] theorem pc_sub_mem : (pc_sub s m).mem = s.mem := rfl

theorem nop_nostore : ∃ s', nop s = .ok s' ∧ NoStore s s' := by
  unfold nop
  exact ⟨_, rfl, by simp [NoStore]⟩

theorem jp_nn_nostore : ∃ s', jp_nn s = .ok s' ∧ NoStore s s' := by
  unfold jp_nn
  exact ⟨_, rfl, by simp [NoStore]⟩

theorem ld_r_r_nostore (hx : validReg8 ((read_byte s s.pc >>> 3) &&& 7))
    (hy : validReg8 (read_byte s s.pc &&& 7)) :
    ∃ s', ld_r_r s = .ok s' ∧ NoStore s s' := by
  unfold ld_r_r
  dsimp only [bind]
  rw [read_reg8_ok s hy]
  dsimp only [Except.bind]
  rw [write_reg8_ok _ _ hx]
  dsimp only [Except.bind, pure, Except.pure]
  exact ⟨_, rfl, by simp [NoStore]⟩

theorem sbc_a_r_nostore (h : validReg8 (read_byte s s.pc &&& 7)) :
    ∃ s', sbc_a_r s = .ok s' ∧ NoStore s s' := by
  unfold sbc_a_r
  dsimp only [bind]
  rw [read_reg8_ok s h]
  dsimp only [Except.bind, read_reg8_A, write_reg8_A, pure, Except.pure]
  exact ⟨_, rfl, by simp [NoStore]⟩

theorem sub_r_nostore (h : validReg8 (read_byte s s.pc &&& 7)) :
    ∃ s', sub_r s = .ok s' ∧ NoStore s s' := by
  unfold sub_r
  dsimp only [bind]
  rw [read_reg8_ok s h]
  dsimp only [Except.bind, read_reg8_A, write_reg8_A, pure, Except.pure]
  exact ⟨_, rfl, by simp [NoStore]⟩

theorem dec_r_nostore (h : validReg8 ((read_byte s s.pc >>> 3) &&& 7)) :
    ∃ s', dec_r s = .ok s' ∧ NoStore s s' := by
  unfold dec_r
  dsimp only [bind]
  rw [read_reg8_ok s h]
  dsimp only [Except.bind]
  rw [write_reg8_ok _ _ h]
  dsimp only [Except.bind, pure, Except.pure]
  exact ⟨_, rfl, by simp [NoStore]⟩

theorem ld_r_xx_nostore (h : validReg8 ((read_byte s s.pc >>> 3) &&& 7)) :
    ∃ s', ld_r_xx s = .ok s' ∧ NoStore s s' := by
  unfold ld_r_xx
  dsimp only [bind]
  rw [write_reg8_ok _ _ h]
  dsimp only [Except.bind, pure, Except.pure]
  exact ⟨_, rfl, by simp [NoStore]⟩

theorem inc_r_nostore (h : validReg8 ((read_byte s s.pc >>> 3) &&& 7)) :
    ∃ s', inc_r s = .ok s' ∧ NoStore s s' := by
  unfold inc_r
  dsimp only [bind]
  rw [read_reg8_ok s h]
  dsimp only [Except.bind]
  rw [write_reg8_ok _ _ h]
  dsimp only [Except.bind, pure, Except.pure]
  exact ⟨_, rfl, by simp [NoStore]⟩

theorem jr_e_nostore : ∃ s', jr_e s = .ok s' ∧ NoStore s s' := by
  unfold jr_e
  dsimp only
  split_ifs <;> exact ⟨_, rfl, by simp [NoStore]⟩

theorem ld_r_hl_nostore (h : validReg8 ((read_byte s s.pc >>> 3) &&& 7)) :
    ∃ s', ld_r_hl s = .ok s' ∧ NoStore s s' := by
  unfold ld_r_hl
  dsimp only [bind]
  rw [write_reg8_ok _ _ h]
  dsimp only [Except.bind, pure, Except.pure]
  exact ⟨_, rfl, by simp [NoStore]⟩

theorem ld_r_xxxx_nostore : ∃ s', ld_r_xxxx s = .ok s' ∧ NoStore s s' := by
  unfold ld_r_xxxx
  dsimp only [bind]
  rcases reg16_cases (read_byte s s.pc) with h | h | h | h <;> rw [h] <;>
    exact ⟨_, rfl, by simp [NoStore]⟩

theorem cpl_nostore : ∃ s', cpl s = .ok s' ∧ NoStore s s' := by
  unfold cpl
  dsimp only [bind, Except.bind, read_reg8_A, write_reg8_A, pure, Except.pure]
  exact ⟨_, rfl, by simp [NoStore]⟩

theorem inc_r16_nostore : ∃ s', inc_r16 s = .ok s' ∧ NoStore s s' := by
  unfold inc_r16
  dsimp only [bind]
  rcases reg16_cases (read_byte s s.pc) with h | h | h | h <;> rw [h] <;>
    exact ⟨_, rfl, by simp [NoStore]⟩

theorem xor_r_nostore (h : validReg8 (read_byte s s.pc &&& 7)) :
    ∃ s', xor_r s = .ok s' ∧ NoStore s s' := by
  unfold xor_r
  dsimp only [bind]
  rw [read_reg8_ok s h]
  dsimp only [Except.bind, read_reg8_A, write_reg8_A, pure, Except.pure]
  exact ⟨_, rfl, by simp [NoStore]⟩

theorem jr_nz_nostore : ∃ s', jr_nz s = .ok s' ∧ NoStore s s' := by
  unfold jr_nz
  dsimp only
  split_ifs <;> exact ⟨_, rfl, by simp [NoStore]⟩

theorem di_nostore : ∃ s', di s = .ok s' ∧ NoStore s s' := by
  unfold di
  exact ⟨_, rfl, by simp [NoStore]⟩

theorem cp_xx_nostore : ∃ s', cp_xx s = .ok s' ∧ NoStore s s' := by
  unfold cp_xx
  dsimp only [bind, Except.bind, read_reg8_A, pure, Except.pure]
  exact ⟨_, rfl, by simp [NoStore]⟩

theorem jr_z_nostore : ∃ s', jr_z s = .ok s' ∧ NoStore s s' := by
  unfold jr_z
  dsimp only
  split_ifs <;> exact ⟨_, rfl, by simp [NoStore]⟩

theorem ldh_a_a8_nostore : ∃ s', ldh_a_a8 s = .ok s' ∧ NoStore s s' := by
  unfold ldh_a_a8
  dsimp only [bind, Except.bind, write_reg8_A, pure, Except.pure]
  exact ⟨_, rfl, by simp [NoStore]⟩

/-- The four store handlers: one `write_byte` of the accumulator, `af` kept. -/
theorem ld_bc_a_store : ∃ s', ld_bc_a s = .ok s' ∧
    s'.writes = s.writes ++ [(s.bc % 65536, getReg8 s REG_A)] ∧
    s'.mem (s.bc % 65536) = getReg8 s REG_A ∧ s'.af = s.af := by
  unfold ld_bc_a
  dsimp only [bind, Except.bind, read_reg8_A, pure, Except.pure]
  refine ⟨_, rfl, ?_⟩
  simp [write_byte, pc_add, Nat.mod_eq_of_lt (getReg8_lt s REG_A)]

theorem ldd_hl_a_store : ∃ s', ldd_hl_a s = .ok s' ∧
    s'.writes = s.writes ++ [(s.hl % 65536, getReg8 s REG_A)] ∧
    s'.mem (s.hl % 65536) = getReg8 s REG_A ∧ s'.af = s.af ∧
    s'.hl = (s.hl + 65535) % 65536 := by
  unfold ldd_hl_a
  dsimp only [bind, Except.bind, read_reg8_A, pure, Except.pure]
  refine ⟨_, rfl, ?_⟩
  simp [write_byte, pc_add, Nat.mod_eq_of_lt (getReg8_lt s REG_A)]

theorem ldh_a8_a_store : ∃ s', ldh_a8_a s = .ok s' ∧
    s'.writes = s.writes ++ [(0xFF00 + read_byte s (s.pc + 1), getReg8 s REG_A)] ∧
    s'.mem (0xFF00 + read_byte s (s.pc + 1)) = getReg8 s REG_A ∧ s'.af = s.af := by
  have hb := read_byte_lt s (s.pc + 1)
  have e : (0xFF00 + read_byte s (s.pc + 1)) % 65536 = 0xFF00 + read_byte s (s.pc + 1) :=
    Nat.mod_eq_of_lt (by omega)
  unfold ldh_a8_a
  dsimp only [bind, Except.bind, read_reg8_A, pure, Except.pure]
  refine ⟨_, rfl, ?_⟩
  simp [write_byte, pc_add, Nat.mod_eq_of_lt (getReg8_lt s REG_A), e]

theorem ld_a16_a_store : ∃ s', ld_a16_a s = .ok s' ∧
    s'.writes = s.writes ++ [(read_word s (s.pc + 1), getReg8 s REG_A)] ∧
    s'.mem (read_word s (s.pc + 1)) = getReg8 s REG_A ∧ s'.af = s.af := by
  have h1 := read_byte_lt s (s.pc + 1)
  have h2 := read_byte_lt s (s.pc + 1 + 1)
  have e : read_word s (s.pc + 1) % 65536 = read_word s (s.pc + 1) := by
    unfold read_word
    exact Nat.mod_eq_of_lt (by omega)
  unfold ld_a16_a
  dsimp only [bind, Except.bind, read_reg8_A, pure, Except.pure]
  refine ⟨_, rfl, ?_⟩
  simp [write_byte, pc_add, Nat.mod_eq_of_lt (getReg8_lt s REG_A), e]

end stores

/-! ## Memory writes (C20) -/

set_option maxRecDepth 1000000 in
/-- The opcodes behind the four store handlers. -/
theorem store_opcodes : ∀ op < 256,
    (opcodeEntry op = some .ld_bc_a ↔ op = 0x02) ∧
    (opcodeEntry op = some .ldd_hl_a ↔ op = 0x32) ∧
    (opcodeEntry op = some .ldh_a8_a ↔ op = 0xE0) ∧
    (opcodeEntry op = some .ld_a16_a ↔ op = 0xEA) := by
  decide

/-- A populated opcode other than the four stores writes no memory. -/
theorem handler_nostore (s : State) (h : Handler)
    (hop : opcodeEntry (read_byte s s.pc) = some h)
    (hns : h ∉ [.ld_bc_a, .ldd_hl_a, .ldh_a8_a, .ld_a16_a]) :
    ∃ s', cpu_cycle s = .ok s' ∧ NoStore s s' := by
  rw [cpu_cycle_eq s h hop]
  obtain ⟨h1, h2, h3, h4, h5, h6, h7, h8⟩ :=
    decode_valid (read_byte s s.pc) (read_byte_lt s s.pc)
  cases h
  · exact nop_nostore s
  · exact jp_nn_nostore s
  · exact ld_r_r_nostore s (h1 hop).1 (h1 hop).2
  · exact sbc_a_r_nostore s (h2 hop)
  · exact sub_r_nostore s (h3 hop)
  · exact dec_r_nostore s (h5 hop)
  · exact ld_r_xx_nostore s (h6 hop)
  · exact inc_r_nostore s (h7 hop)
  · exact jr_e_nostore s
  · exact ld_r_hl_nostore s (h8 hop)
  · exact ld_r_xxxx_nostore s
  · exact cpl_nostore s
  · exact absurd (by decide) hns
  · exact inc_r16_nostore s
  · exact xor_r_nostore s (h4 hop)
  · exact absurd (by decide) hns
  · exact jr_nz_nostore s
  · exact di_nostore s
  · exact absurd (by decide) hns
  · exact cp_xx_nostore s
  · exact jr_z_nostore s
  · exact absurd (by decide) hns
  · exact ldh_a_a8_nostore s

/-- C20: memory is written only by `ld (bc),a` (0x02), `ldd (hl),a` (0x32),
`ldh (a8),a` (0xE0) and `ld (a16),a` (0xEA): each makes one `write_byte` call,
of the accumulator, at `BC`, at the old `HL` (then `HL` is decremented mod 2^16),
at `0xFF00 + byte(pc+1)` (within 0xFF00..0xFFFF) and at the little-endian word at
`pc + 1`, and keeps the accumulator and the flags; every other populated opcode
makes no `write_byte` call and leaves the memory as it was. -/
theorem memory_writes (s : State) (h : Handler) (A : Nat)
    (hop : opcodeEntry (read_byte s s.pc) = some h)
    (hA : read_reg8 s REG_A = .ok A) :
    ∃ s', cpu_cycle s = .ok s' ∧
      (read_byte s s.pc = 0x02 →
        s'.writes = s.writes ++ [(s.bc % 65536, A)] ∧ s'.af = s.af) ∧
      (read_byte s s.pc = 0x32 →
        s'.writes = s.writes ++ [(s.hl % 65536, A)] ∧
        (s'.hl : Int) = ((s.hl : Int) - 1) % 65536 ∧ s'.af = s.af) ∧
      (read_byte s s.pc = 0xE0 →
        s'.writes = s.writes ++ [(0xFF00 + read_byte s (s.pc + 1), A)] ∧
        (0xFF00 ≤ 0xFF00 + read_byte s (s.pc + 1) ∧
          0xFF00 + read_byte s (s.pc + 1) ≤ 0xFFFF) ∧ s'.af = s.af) ∧
      (read_byte s s.pc = 0xEA →
        s'.writes =
          s.writes ++ [(read_byte s (s.pc + 1) + 256 * read_byte s (s.pc + 2), A)] ∧
        s'.af = s.af) ∧
      (read_byte s s.pc ∉ [0x02, 0x32, 0xE0, 0xEA] →
        s'.writes = s.writes ∧ s'.mem = s.mem) := by
  have hA' : getReg8 s REG_A = A := by
    have := read_reg8_A s
    rw [hA] at this
    exact (Except.ok.inj this).symm
  obtain ⟨o1, o2, o3, o4⟩ := store_opcodes (read_byte s s.pc) (read_byte_lt s s.pc)
  obtain ⟨s0, hs0, -⟩ := handler_steps s h hop
  have uniq : ∀ {hd : Handler} {u : State}, opcodeEntry (read_byte s s.pc) = some hd →
      hd.run s = .ok u → u = s0 := by
    intro hd u hent hu
    rw [← cpu_cycle_eq s hd hent, hs0] at hu
    exact (Except.ok.inj hu).symm
  refine ⟨s0, hs0, ?_, ?_, ?_, ?_, ?_⟩
  · intro e
    obtain ⟨u, hu, hw, -, haf⟩ := ld_bc_a_store s
    have := uniq (o1.mpr e) hu
    subst this
    exact ⟨by rw [hw, hA'], haf⟩
  · intro e
    obtain ⟨u, hu, hw, -, haf, hhl⟩ := ldd_hl_a_store s
    have := uniq (o2.mpr e) hu
    subst this
    exact ⟨by rw [hw, hA'], by rw [hhl]; omega, haf⟩
  · intro e
    obtain ⟨u, hu, hw, -, haf⟩ := ldh_a8_a_store s
    have := uniq (o3.mpr e) hu
    subst this
    have hb := read_byte_lt s (s.pc + 1)
    exact ⟨by rw [hw, hA'], ⟨by omega, by omega⟩, haf⟩
  · intro e
    obtain ⟨u, hu, hw, -, haf⟩ := ld_a16_a_store s
    have := uniq (o4.mpr e) hu
    subst this
    exact ⟨by rw [hw, hA']; rfl, haf⟩
  · intro hne
    have hns : h ∉ [.ld_bc_a, .ldd_hl_a, .ldh_a8_a, .ld_a16_a] := by
      intro hm
      apply hne
      simp only [List.mem_cons, List.mem_singleton, List.not_mem_nil, or_false] at hm ⊢
      rcases hm with e | e | e | e <;> subst e
      · exact Or.inl (o1.mp hop)
      · exact Or.inr (Or.inl (o2.mp hop))
      · exact Or.inr (Or.inr (Or.inl (o3.mp hop)))
      · exact Or.inr (Or.inr (Or.inr (o4.mp hop)))
    obtain ⟨u, hu, hw, hm⟩ := handler_nostore s h hop hns
    rw [hs0] at hu
    have := Except.ok.inj hu
    subst this
    exact ⟨hw, hm⟩

/-- C20 at a concrete input: `ldh (0x40),a` with A = 0x91 writes 0x91 at 0xFF40. -/
theorem memory_writes_witness :
    ∃ s', cpu_cycle (exampleState 0x9100 0 [0xE0, 0x40]) = .ok s' ∧
      s'.writes = (exampleState 0x9100 0 [0xE0, 0x40]).writes ++
        [(0xFF00 + read_byte (exampleState 0x9100 0 [0xE0, 0x40])
          ((exampleState 0x9100 0 [0xE0, 0x40]).pc + 1), 0x91)] ∧
      s'.af = (exampleState 0x9100 0 [0xE0, 0x40]).af := by
  obtain ⟨s', h1, -, -, h2, -⟩ :=
    memory_writes (exampleState 0x9100 0 [0xE0, 0x40]) .ldh_a8_a 0x91 (by decide) rfl
  exact ⟨s', h1, (h2 (by decide)).1, (h2 (by decide)).2.2⟩

/-! ## Compare against subtract (C14) -/

/-- C14: `cp n` (0xFE) keeps the accumulator and every register other than the
flags byte and `pc`, and its flags byte is the one `sub r` produces from the
same `af` with register `r` holding `n`. -/
theorem cp_is_sub_without_writeback (s t : State) (n : Nat)
    (hcp : read_byte s s.pc = 0xFE) (hn : read_byte s (s.pc + 1) = n)
    (hsub : read_byte t t.pc ∈ [0x90, 0x91, 0x92, 0x93, 0x94, 0x95, 0x97])
    (haf : t.af = s.af) (hr : read_reg8 t (read_byte t t.pc &&& 7) = .ok n) :
    ∃ s' t', cpu_cycle s = .ok s' ∧ cpu_cycle t = .ok t' ∧
      read_reg8 s' REG_A = read_reg8 s REG_A ∧
      (s'.bc = s.bc ∧ s'.de = s.de ∧ s'.hl = s.hl ∧ s'.sp = s.sp) ∧
      s'.af &&& 0xFF = t'.af &&& 0xFF := by
  obtain ⟨hent, hval⟩ := sub_r_opcodes _ hsub
  have er : getReg8 t (read_byte t t.pc &&& 7) = n := by
    have := read_reg8_ok t hval
    rw [hr] at this
    exact (Except.ok.inj this).symm
  have eA : getReg8 t REG_A = getReg8 s REG_A := by
    rw [getReg8_A, getReg8_A, haf]
  obtain ⟨s', c1, cA, cH, cC⟩ := cp_xx_effect s
  obtain ⟨s2, c2, cZ, cN, cnib, cbc, cde, chl, csp, -⟩ := cp_xx_flags s
  have e2 : s2 = s' := Except.ok.inj (c2.symm.trans c1)
  subst e2
  obtain ⟨t', u1, -, uZ, uN, uH, uC⟩ := sub_r_effect t hval
  obtain ⟨t2, u2, unib, -⟩ := sub_r_steps t hval
  have e3 : t2 = t' := Except.ok.inj (u2.symm.trans u1)
  subst e3
  rw [er, eA] at uZ uH uC
  rw [hn] at cZ cH cC
  refine ⟨s2, t2, ?_, ?_, ?_, ⟨cbc, cde, chl, csp⟩, ?_⟩
  · rw [cpu_cycle_eq s .cp_xx (by rw [hcp]; decide)]; exact c1
  · rw [cpu_cycle_eq t .sub_r hent]; exact u1
  · rw [read_reg8_A, read_reg8_A, cA]
  · rw [and_255, and_255, flags_byte s2, flags_byte t2, cnib, unib, haf, cZ, cN, cH, cC, uZ,
      uN, uH, uC]

/-- C14 at a concrete input: `cp 0x20` and `sub b` with B = 0x20, both from
AF = 0x1000. -/
theorem cp_is_sub_without_writeback_witness :
    ∃ s' t', cpu_cycle (exampleState 0x1000 0 [0xFE, 0x20]) = .ok s' ∧
      cpu_cycle (exampleState 0x1000 0x2000 [0x90]) = .ok t' ∧
      read_reg8 s' REG_A = read_reg8 (exampleState 0x1000 0 [0xFE, 0x20]) REG_A ∧
      (s'.bc = (exampleState 0x1000 0 [0xFE, 0x20]).bc ∧
        s'.de = (exampleState 0x1000 0 [0xFE, 0x20]).de ∧
        s'.hl = (exampleState 0x1000 0 [0xFE, 0x20]).hl ∧
        s'.sp = (exampleState 0x1000 0 [0xFE, 0x20]).sp) ∧
      s'.af &&& 0xFF = t'.af &&& 0xFF :=
  cp_is_sub_without_writeback (exampleState 0x1000 0 [0xFE, 0x20])
    (exampleState 0x1000 0x2000 [0x90]) 0x20 (by decide) (by decide) (by decide) rfl rfl

/-! ## Loads and 16-bit increment (C15) -/

/-- What an 8-bit load into register `x` leaves alone. -/
theorem load8_frame (s : State) (x v : Nat) (n : Int) (k : Nat) (hx : validReg8 x) :
    read_reg8 (count_cycles (pc_add (setReg8 s x v) k) n) x = .ok (v % 256) ∧
    (∀ j ∈ [0, 1, 2, 3, 4, 5, 7], j ≠ x →
      read_reg8 (count_cycles (pc_add (setReg8 s x v) k) n) j = read_reg8 s j) ∧
    (count_cycles (pc_add (setReg8 s x v) k) n).af &&& 0xFF = s.af &&& 0xFF ∧
    (count_cycles (pc_add (setReg8 s x v) k) n).sp = s.sp := by
  refine ⟨?_, ?_, ?_, ?_⟩
  · rw [read_reg8_ok _ hx, getReg8_count_cycles, getReg8_pc_add, getReg8_setReg8_same s v hx]
  · intro j hj hne
    have hjv : validReg8 j := hj
    rw [read_reg8_ok _ hjv, read_reg8_ok _ hjv, getReg8_count_cycles, getReg8_pc_add,
      getReg8_setReg8_other s v hx hjv hne]
  · rw [and_255, and_255, count_cycles_af, pc_add_af]
    exact setReg8_af_lo s x v
  · rw [count_cycles_sp]
    exact setReg8_sp s x v

theorem ld_r_r_effect (s : State) (hx : validReg8 ((read_byte s s.pc >>> 3) &&& 7))
    (hy : validReg8 (read_byte s s.pc &&& 7)) :
    ∃ s', ld_r_r s = .ok s' ∧
      read_reg8 s' ((read_byte s s.pc >>> 3) &&& 7) = read_reg8 s (read_byte s s.pc &&& 7) ∧
      (∀ j ∈ [0, 1, 2, 3, 4, 5, 7], j ≠ (read_byte s s.pc >>> 3) &&& 7 →
        read_reg8 s' j = read_reg8 s j) ∧
      s'.af &&& 0xFF = s.af &&& 0xFF ∧ s'.sp = s.sp := by
  unfold ld_r_r
  dsimp only [bind]
  rw [read_reg8_ok s hy]
  dsimp only [Except.bind]
  rw [write_reg8_ok _ _ hx]
  dsimp only [Except.bind, pure, Except.pure]
  obtain ⟨f1, f2, f3, f4⟩ :=
    load8_frame s ((read_byte s s.pc >>> 3) &&& 7) (getReg8 s (read_byte s s.pc &&& 7)) 1 1 hx
  refine ⟨_, rfl, ?_, f2, f3, f4⟩
  rw [f1, Nat.mod_eq_of_lt (getReg8_lt s _)]

theorem ld_r_xx_effect (s : State) (hx : validReg8 ((read_byte s s.pc >>> 3) &&& 7)) :
    ∃ s', ld_r_xx s = .ok s' ∧
      read_reg8 s' ((read_byte s s.pc >>> 3) &&& 7) = .ok (read_byte s (s.pc + 1)) ∧
      (∀ j ∈ [0, 1, 2, 3, 4, 5, 7], j ≠ (read_byte s s.pc >>> 3) &&& 7 →
        read_reg8 s' j = read_reg8 s j) ∧
      s'.af &&& 0xFF = s.af &&& 0xFF ∧ s'.sp = s.sp := by
  unfold ld_r_xx
  dsimp only [bind]
  rw [write_reg8_ok _ _ hx]
  dsimp only [Except.bind, pure, Except.pure]
  obtain ⟨f1, f2, f3, f4⟩ :=
    load8_frame s ((read_byte s s.pc >>> 3) &&& 7) (read_byte s (s.pc + 1)) 2 2 hx
  refine ⟨_, rfl, ?_, f2, f3, f4⟩
  rw [f1, Nat.mod_eq_of_lt (read_byte_lt s _)]

section reg16

variable (s : State) (n : Int) (k : Nat)

theorem read_reg16_step (q : Nat) (hq : q ∈ [0, 1, 2, 3]) (t : State)
    (hb : q = 0 → t.bc = s.bc) (hd : q = 1 → t.de = s.de) (hh : q = 2 → t.hl = s.hl)
    (hs : q = 3 → t.sp = s.sp) :
    read_reg16 (count_cycles (pc_add t k) n) q = read_reg16 s q := by
  simp only [List.mem_cons, List.mem_singleton, List.not_mem_nil, or_false] at hq
  rcases hq with e | e | e | e <;> subst e
  · simp [read_reg16, REG_BC, pc_add, hb rfl]
  · simp [read_reg16, REG_BC, REG_DE, pc_add, hd rfl]
  · simp [read_reg16, REG_BC, REG_DE, REG_HL, pc_add, hh rfl]
  · simp [read_reg16, REG_BC, REG_DE, REG_HL, REG_SP, pc_add, hs rfl]

end reg16

theorem ld_r_xxxx_effect (s : State) :
    ∃ s', ld_r_xxxx s = .ok s' ∧
      read_reg16 s' ((read_byte s s.pc >>> 4) &&& 3) = .ok (read_word s (s.pc + 1)) ∧
      (∀ q ∈ [0, 1, 2, 3], q ≠ (read_byte s s.pc >>> 4) &&& 3 →
        read_reg16 s' q = read_reg16 s q) ∧
      s'.af = s.af := by
  have h1 := read_byte_lt s (s.pc + 1)
  have h2 := read_byte_lt s (s.pc + 1 + 1)
  have e : read_word s (s.pc + 1) % 65536 = read_word s (s.pc + 1) := by
    unfold read_word
    exact Nat.mod_eq_of_lt (by omega)
  unfold ld_r_xxxx
  dsimp only [bind]
  rcases reg16_cases (read_byte s s.pc) with h | h | h | h <;> rw [h]
  · refine ⟨_, rfl, by simp [read_reg16, REG_BC, pc_add, e], ?_, by simp [pc_add]⟩
    intro q hq hne
    exact read_reg16_step s 3 3 q hq _ (fun e0 => absurd e0 hne) (fun _ => rfl)
      (fun _ => rfl) (fun _ => rfl)
  · refine ⟨_, rfl, by simp [read_reg16, REG_BC, REG_DE, pc_add, e], ?_, by simp [pc_add]⟩
    intro q hq hne
    exact read_reg16_step s 3 3 q hq _ (fun _ => rfl) (fun e0 => absurd e0 hne)
      (fun _ => rfl) (fun _ => rfl)
  · refine ⟨_, rfl, by simp [read_reg16, REG_BC, REG_DE, REG_HL, pc_add, e], ?_,
      by simp [pc_add]⟩
    intro q hq hne
    exact read_reg16_step s 3 3 q hq _ (fun _ => rfl) (fun _ => rfl)
      (fun e0 => absurd e0 hne) (fun _ => rfl)
  · refine ⟨_, rfl, by simp [read_reg16, REG_BC, REG_DE, REG_HL, REG_SP, pc_add, e], ?_,
      by simp [pc_add]⟩
    intro q hq hne
    exact read_reg16_step s 3 3 q hq _ (fun _ => rfl) (fun _ => rfl) (fun _ => rfl)
      (fun e0 => absurd e0 hne)

theorem inc_r16_effect (s : State) (v : Nat)
    (hv : read_reg16 s ((read_byte s s.pc >>> 4) &&& 3) = .ok v) :
    ∃ s', inc_r16 s = .ok s' ∧
      read_reg16 s' ((read_byte s s.pc >>> 4) &&& 3) = .ok ((v + 1) % 65536) ∧
      (∀ q ∈ [0, 1, 2, 3], q ≠ (read_byte s s.pc >>> 4) &&& 3 →
        read_reg16 s' q = read_reg16 s q) ∧
      s'.af = s.af := by
  unfold inc_r16
  dsimp only [bind]
  rcases reg16_cases (read_byte s s.pc) with h | h | h | h <;> rw [h] at hv ⊢
  · have ev : s.bc % 65536 = v := Except.ok.inj hv
    refine ⟨_, rfl, by simp [read_reg16, REG_BC, pc_add, ev], ?_, by simp [pc_add]⟩
    intro q hq hne
    exact read_reg16_step s 2 1 q hq _ (fun e0 => absurd e0 hne) (fun _ => rfl)
      (fun _ => rfl) (fun _ => rfl)
  · have ev : s.de % 65536 = v := Except.ok.inj hv
    refine ⟨_, rfl, by simp [read_reg16, REG_BC, REG_DE, pc_add, ev], ?_, by simp [pc_add]⟩
    intro q hq hne
    exact read_reg16_step s 2 1 q hq _ (fun _ => rfl) (fun e0 => absurd e0 hne)
      (fun _ => rfl) (fun _ => rfl)
  · have ev : s.hl % 65536 = v := Except.ok.inj hv
    refine ⟨_, rfl, by simp [read_reg16, REG_BC, REG_DE, REG_HL, pc_add, ev], ?_,
      by simp [pc_add]⟩
    intro q hq hne
    exact read_reg16_step s 2 1 q hq _ (fun _ => rfl) (fun _ => rfl)
      (fun e0 => absurd e0 hne) (fun _ => rfl)
  · have ev : s.sp % 65536 = v := Except.ok.inj hv
    refine ⟨_, rfl, by simp [read_reg16, REG_BC, REG_DE, REG_HL, REG_SP, pc_add, ev], ?_,
      by simp [pc_add]⟩
    intro q hq hne
    exact read_reg16_step s 2 1 q hq _ (fun _ => rfl) (fun _ => rfl) (fun _ => rfl)
      (fun e0 => absurd e0 hne)

set_option maxRecDepth 1000000 in
/-- The opcodes behind the load and 16-bit increment handlers. -/
theorem load_opcodes : ∀ op < 256,
    (opcodeEntry op = some .ld_r_r → 0x40 ≤ op ∧ op ≤ 0x7F) ∧
    (opcodeEntry op = some .ld_r_xx ↔ op ∈ [0x06, 0x0E, 0x16, 0x1E, 0x26, 0x2E, 0x3E]) ∧
    (opcodeEntry op = some .ld_r_xxxx ↔ op ∈ [0x01, 0x11, 0x21, 0x31]) ∧
    (opcodeEntry op = some .inc_r16 ↔ op ∈ [0x03, 0x13, 0x23, 0x33]) := by
  decide

/-- C15: `ld r,r'` copies `r'` into `r`, `ld r,d8` loads the byte at `pc + 1`,
`ld rr,d16` (0x01, 0x11, 0x21, 0x31) loads `byte(pc+1) + 256 * byte(pc+2)` into
the pair and `inc rr` (0x03, 0x13, 0x23, 0x33) adds one to the pair mod 2^16 (so
0xFFFF becomes 0); each leaves the flags byte and every register outside its
destination other than `pc` as it was. -/
theorem loads_change_only_destination (s : State) (h : Handler)
    (hop : opcodeEntry (read_byte s s.pc) = some h) :
    ∃ s', cpu_cycle s = .ok s' ∧
      (h = .ld_r_r → (0x40 ≤ read_byte s s.pc ∧ read_byte s s.pc ≤ 0x7F) ∧
        read_reg8 s' ((read_byte s s.pc >>> 3) &&& 7) =
          read_reg8 s (read_byte s s.pc &&& 7) ∧
        (∃ v, read_reg8 s (read_byte s s.pc &&& 7) = .ok v) ∧
        (∀ j ∈ [0, 1, 2, 3, 4, 5, 7], j ≠ (read_byte s s.pc >>> 3) &&& 7 →
          read_reg8 s' j = read_reg8 s j) ∧
        s'.af &&& 0xFF = s.af &&& 0xFF ∧ s'.sp = s.sp) ∧
      (read_byte s s.pc ∈ [0x06, 0x0E, 0x16, 0x1E, 0x26, 0x2E, 0x3E] →
        read_reg8 s' ((read_byte s s.pc >>> 3) &&& 7) = .ok (read_byte s (s.pc + 1)) ∧
        (∀ j ∈ [0, 1, 2, 3, 4, 5, 7], j ≠ (read_byte s s.pc >>> 3) &&& 7 →
          read_reg8 s' j = read_reg8 s j) ∧
        s'.af &&& 0xFF = s.af &&& 0xFF ∧ s'.sp = s.sp) ∧
      (read_byte s s.pc ∈ [0x01, 0x11, 0x21, 0x31] →
        read_reg16 s' ((read_byte s s.pc >>> 4) &&& 3) =
          .ok (read_byte s (s.pc + 1) + 256 * read_byte s (s.pc + 2)) ∧
        (∀ q ∈ [0, 1, 2, 3], q ≠ (read_byte s s.pc >>> 4) &&& 3 →
          read_reg16 s' q = read_reg16 s q) ∧
        s'.af = s.af) ∧
      (read_byte s s.pc ∈ [0x03, 0x13, 0x23, 0x33] →
        ∀ v, read_reg16 s ((read_byte s s.pc >>> 4) &&& 3) = .ok v →
        read_reg16 s' ((read_byte s s.pc >>> 4) &&& 3) = .ok ((v + 1) % 65536) ∧
        (v = 0xFFFF → read_reg16 s' ((read_byte s s.pc >>> 4) &&& 3) = .ok 0) ∧
        (∀ q ∈ [0, 1, 2, 3], q ≠ (read_byte s s.pc >>> 4) &&& 3 →
          read_reg16 s' q = read_reg16 s q) ∧
        s'.af = s.af) := by
  obtain ⟨o1, o2, o3, o4⟩ := load_opcodes (read_byte s s.pc) (read_byte_lt s s.pc)
  obtain ⟨d1, -, -, -, -, d6, -, -⟩ := decode_valid (read_byte s s.pc) (read_byte_lt s s.pc)
  obtain ⟨s0, hs0, -⟩ := handler_steps s h hop
  have uniq : ∀ {hd : Handler} {u : State}, opcodeEntry (read_byte s s.pc) = some hd →
      hd.run s = .ok u → u = s0 := by
    intro hd u hent hu
    rw [← cpu_cycle_eq s hd hent, hs0] at hu
    exact (Except.ok.inj hu).symm
  refine ⟨s0, hs0, ?_, ?_, ?_, ?_⟩
  · intro e
    subst e
    obtain ⟨u, hu, f1, f2, f3, f4⟩ := ld_r_r_effect s (d1 hop).1 (d1 hop).2
    have := uniq hop hu
    subst this
    exact ⟨o1 hop, f1, ⟨_, read_reg8_ok s (d1 hop).2⟩, f2, f3, f4⟩
  · intro hm
    have hent := o2.mpr hm
    obtain ⟨u, hu, f1, f2, f3, f4⟩ := ld_r_xx_effect s (d6 hent)
    have := uniq hent hu
    subst this
    exact ⟨f1, f2, f3, f4⟩
  · intro hm
    have hent := o3.mpr hm
    obtain ⟨u, hu, f1, f2, f3⟩ := ld_r_xxxx_effect s
    have := uniq hent hu
    subst this
    exact ⟨f1, f2, f3⟩
  · intro hm v hv
    have hent := o4.mpr hm
    obtain ⟨u, hu, f1, f2, f3⟩ := inc_r16_effect s v hv
    have := uniq hent hu
    subst this
    exact ⟨f1, fun e => by rw [f1, e], f2, f3⟩

/-- C15 at a concrete input: `inc bc` from BC = 0xFFFF. -/
theorem loads_change_only_destination_witness :
    ∃ s', cpu_cycle (exampleState 0x01B0 0xFFFF [0x03]) = .ok s' ∧
      read_reg16 s' ((read_byte (exampleState 0x01B0 0xFFFF [0x03])
        (exampleState 0x01B0 0xFFFF [0x03]).pc >>> 4) &&& 3) = .ok 0 ∧
      s'.af = (exampleState 0x01B0 0xFFFF [0x03]).af := by
  obtain ⟨s', h1, -, -, -, h2⟩ :=
    loads_change_only_destination (exampleState 0x01B0 0xFFFF [0x03]) .inc_r16 (by decide)
  obtain ⟨-, h3, -, h4⟩ := h2 (by decide) 0xFFFF rfl
  exact ⟨s', h1, h3 rfl, h4⟩

/-! ## The no-op / jump loop (C17) -/

theorem jrTarget_loop : jrTarget 0x0101 0xFE = 0x0101 := by decide

theorem read_byte_of_mem {s t : State} (h : t.mem = s.mem) (a : Nat) :
    read_byte t a = read_byte s a := by
  unfold read_byte
  rw [h]

theorem loop_step (s : State) (m : Int) (hinv : LoopInv s m) :
    ∃ s', cpu_cycle s = .ok s' ∧ LoopInv s' (m + 4) := by
  obtain ⟨hpc, haf, hbc, hde, hhl, hsp, hm1, hm2, htot⟩ := hinv
  have hop : opcodeEntry (read_byte s s.pc) = some .jr_e := by
    rw [hpc, hm1]; decide
  obtain ⟨⟨a, ha, fa, fb, fd, fh, fs, -⟩, -, -⟩ := jr_frame s
  obtain ⟨b, hb, -, -, ht, -, hp⟩ := jr_e_steps s
  obtain ⟨c, hc, -, hmem⟩ := jr_e_nostore s
  have e1 : b = a := Except.ok.inj (hb.symm.trans ha)
  have e2 : c = a := Except.ok.inj (hc.symm.trans ha)
  subst e1 e2
  refine ⟨c, ?_, ?_⟩
  · rw [cpu_cycle_eq s .jr_e hop]; exact ha
  · refine ⟨?_, fa.trans haf, fb.trans hbc, fd.trans hde, fh.trans hhl, fs.trans hsp, ?_, ?_,
      ?_⟩
    · rw [hp, hpc, show (257 : Nat) + 1 = 0x0102 from rfl, hm2]
      exact jrTarget_loop
    · rw [read_byte_of_mem hmem, hm1]
    · rw [read_byte_of_mem hmem, hm2]
    · rw [ht, htot]; ring

theorem loop_run (k : Nat) : ∀ (s : State) (m : Int), LoopInv s m →
    ∃ s', run k s = .ok s' ∧ LoopInv s' (m + 4 * k) := by
  induction k with
  | zero =>
    intro s m h
    exact ⟨s, rfl, by simpa using h⟩
  | succ k ih =>
    intro s m h
    obtain ⟨s1, h1, hinv1⟩ := loop_step s m h
    obtain ⟨s2, h2, hinv2⟩ := ih s1 (m + 4) hinv1
    refine ⟨s2, ?_, ?_⟩
    · unfold run
      rw [h1]
      exact h2
    · have e : m + 4 + 4 * (k : Int) = m + 4 * ((k + 1 : Nat) : Int) := by
        push_cast; ring
      rw [← e]
      exact hinv2

/-- The exact cycle count of the loop: after `1 + k` steps from the state
`cpu_start` leaves, the run has not faulted, `pc = 0x0101`, the registers are the
post-boot ones and the exact count is `2 + 4 k`. -/
theorem nop_jr_loop_exact (cfg : Config) (s0 : State) (k : Nat)
    (h0 : s0.total_cycles = 0) (m0 : read_byte s0 0x0100 = 0x00)
    (m1 : read_byte s0 0x0101 = 0x18) (m2 : read_byte s0 0x0102 = 0xFE) :
    ∃ s', run (1 + k) (cpu_start cfg s0) = .ok s' ∧
      s'.pc = 0x0101 ∧ s'.af = 0x01B0 ∧ s'.bc = 0x0013 ∧ s'.de = 0x00D8 ∧
      s'.hl = 0x014D ∧ s'.sp = 0xFFFE ∧ s'.total_cycles = 2 + 4 * (k : Int) := by
  have hmem : (cpu_start cfg s0).mem = s0.mem := rfl
  have hop : opcodeEntry (read_byte (cpu_start cfg s0) (cpu_start cfg s0).pc) = some .nop := by
    rw [read_byte_of_mem hmem]
    show opcodeEntry (read_byte s0 0x0100) = some .nop
    rw [m0]; decide
  have hstep : cpu_cycle (cpu_start cfg s0) =
      .ok (count_cycles (pc_add (cpu_start cfg s0) 1) 1) := by
    rw [cpu_cycle_eq _ .nop hop]; rfl
  have hinv : LoopInv (count_cycles (pc_add (cpu_start cfg s0) 1) 1) 2 := by
    refine ⟨?_, ?_, ?_, ?_, ?_, ?_, ?_, ?_, ?_⟩
    · rw [count_cycles_pc]; rfl
    · rw [count_cycles_af]; rfl
    · rw [count_cycles_bc]; rfl
    · rw [count_cycles_de]; rfl
    · rw [count_cycles_hl]; rfl
    · rw [count_cycles_sp]; rfl
    · rw [read_byte_of_mem (count_cycles_mem _ _), read_byte_of_mem (show
        (pc_add (cpu_start cfg s0) 1).mem = s0.mem from rfl), m1]
    · rw [read_byte_of_mem (count_cycles_mem _ _), read_byte_of_mem (show
        (pc_add (cpu_start cfg s0) 1).mem = s0.mem from rfl), m2]
    · rw [count_cycles_total]
      show s0.total_cycles + (1 + 1) = 2
      rw [h0]; rfl
  obtain ⟨s', hrun, hp, ha, hb, hd, hh, hs, -, -, ht⟩ := loop_run k _ 2 hinv
  refine ⟨s', ?_, hp, ha, hb, hd, hh, hs, ht⟩
  rw [Nat.add_comm 1 k]
  unfold run
  rw [hstep]
  exact hrun

/-- C17 (as stated, at a failing input): after `1 + 536870912` steps of the loop
the `int` counter holds -2147483646, not `2 + 4 * 536870912`. -/
theorem nop_jr_loop_overflow :
    ∃ s', run (1 + 536870912)
        (cpu_start ⟨false, 4194304, 8388608, 0⟩
          { zeroState with mem := progMem [0x00, 0x18, 0xFE] }) = .ok s' ∧
      s'.pc = 0x0101 ∧
      asInt s'.total_cycles = -2147483646 ∧
      asInt s'.total_cycles ≠ 2 + 4 * ((536870912 : Nat) : Int) := by
  obtain ⟨s', h1, h2, -, -, -, -, -, ht⟩ :=
    nop_jr_loop_exact ⟨false, 4194304, 8388608, 0⟩
      { zeroState with mem := progMem [0x00, 0x18, 0xFE] } 536870912 rfl (by decide)
      (by decide) (by decide)
  refine ⟨s', h1, h2, ?_, ?_⟩
  · rw [ht]; decide
  · rw [ht]; decide

/-- C17 (amended): from the state `cpu_start` leaves, with `total_cycles = 0`
and memory holding 0x00 at 0x0100 and 0x18 0xFE at 0x0101-0x0102, for every `k`
the run of `1 + k` steps does not fault and ends with `pc = 0x0101` and the
post-boot registers and flags; as long as `2 + 4 k` does not exceed `INT_MAX`
the `int` counter `total_cycles` is `2 + 4 k`. -/
theorem nop_jr_loop (cfg : Config) (s0 : State) (k : Nat)
    (h0 : s0.total_cycles = 0) (m0 : read_byte s0 0x0100 = 0x00)
    (m1 : read_byte s0 0x0101 = 0x18) (m2 : read_byte s0 0x0102 = 0xFE) :
    (cpu_start cfg s0).pc = 0x0100 ∧ asInt (cpu_start cfg s0).total_cycles = 0 ∧
    ∃ s', run (1 + k) (cpu_start cfg s0) = .ok s' ∧
      s'.pc = 0x0101 ∧ s'.af = 0x01B0 ∧ s'.bc = 0x0013 ∧ s'.de = 0x00D8 ∧
      s'.hl = 0x014D ∧ s'.sp = 0xFFFE ∧
      (2 + 4 * (k : Int) ≤ INT_MAX → asInt s'.total_cycles = 2 + 4 * (k : Int)) := by
  obtain ⟨s', h1, hp, ha, hb, hd, hh, hs, ht⟩ := nop_jr_loop_exact cfg s0 k h0 m0 m1 m2
  refine ⟨rfl, ?_, s', h1, hp, ha, hb, hd, hh, hs, ?_⟩
  · show asInt s0.total_cycles = 0
    rw [h0]; decide
  · intro hk
    rw [ht]
    exact asInt_of_range (by omega) hk

/-- C17 at a concrete input: four steps (`k = 3`) at classic speed. -/
theorem nop_jr_loop_witness :
    ∃ s', run (1 + 3)
        (cpu_start ⟨false, 4194304, 8388608, 0⟩
          { zeroState with mem := progMem [0x00, 0x18, 0xFE] }) = .ok s' ∧
      s'.pc = 0x0101 ∧ s'.af = 0x01B0 ∧ s'.bc = 0x0013 ∧ s'.de = 0x00D8 ∧
      s'.hl = 0x014D ∧ s'.sp = 0xFFFE ∧ asInt s'.total_cycles = 2 + 4 * ((3 : Nat) : Int) := by
  obtain ⟨s', h1, hp, ha, hb, hd, hh, hs, ht⟩ :=
    (nop_jr_loop ⟨false, 4194304, 8388608, 0⟩
      { zeroState with mem := progMem [0x00, 0x18, 0xFE] } 3 rfl (by decide) (by decide)
      (by decide)).2.2
  exact ⟨s', h1, hp, ha, hb, hd, hh, hs, ht (by decide)⟩

end TinyGB
